import Mathlib

/-!
# borderlesser: the arena allocator and the arena-backed array

A shallow embedding of `ArenaAllocator` and `ArenaArray<T>` from
`src/borderlesser.cpp` (lines 36-113), and the properties of them that the
specification states.

Conventions of the embedding.

* `size_t` and `uintptr_t` are the 64-bit unsigned integers of the x64 build:
  a value is a `Nat`, and every `+`, `-`, `*` of the source is taken modulo
  `SIZE_T = 2 ^ 64`.
* A pointer is an address (`Nat`); `NULL` is address `0`.
* The heap block obtained by `Init` is the address interval
  `[_buf, _buf + _buf_len)`; its contents are the field `bytes`, a map from
  address to byte.  Only this block is modelled as accessible memory.
* A library call that would touch memory outside the block (`memset`,
  `memcpy`), or a `memcpy` whose source and destination overlap, has undefined
  behaviour in C.  The embedding reports it as `Outcome.fault`, carrying the
  state reached when the offending call was made.
* The template parameter `T` appears only through `sizeof(T)`, passed as the
  explicit argument `sizeofT`; an object of type `T` is its object
  representation, a run of `sizeofT` bytes.
-/

namespace Borderlesser

/-- The modulus of `size_t` / `uintptr_t` arithmetic (64-bit build). -/
abbrev SIZE_T : Nat := 2 ^ 64

/-- The null pointer. -/
abbrev NULL : Nat := 0

/-- Line 36: `#define DEFAULT_ARENA_ALIGNMENT (2 * sizeof(void *))`, with
`sizeof(void *) = 8`. -/
abbrev DEFAULT_ARENA_ALIGNMENT : Nat := 2 * 8

/-- Result of running a piece of code: `ok s` when every memory access was
inside the arena block, `fault s` when the code ran into undefined behaviour
(an access outside the block, or an overlapping `memcpy`) in state `s`. -/
inductive Outcome (σ : Type) where
  | ok (s : σ) : Outcome σ
  | fault (s : σ) : Outcome σ

/-- The state carried by an outcome. -/
def Outcome.state {σ : Type} : Outcome σ → σ
  | .ok s => s
  | .fault s => s

/-- Whether the run finished without undefined behaviour. -/
def Outcome.isOk {σ : Type} : Outcome σ → Bool
  | .ok _ => true
  | .fault _ => false

/-- Lines 38-41: `struct ArenaAllocator { u8 *_buf; size_t _buf_len; size_t
_curr_offset; }` together with the contents of the block `_buf` points to. -/
structure ArenaAllocator where
  _buf : Nat
  _buf_len : Nat
  _curr_offset : Nat
  bytes : Nat → Nat

/-- Lines 81-84: `struct ArenaArray<T> { T *_array; size_t _length; size_t
_capacity; }`. -/
structure ArenaArray where
  _array : Nat
  _length : Nat
  _capacity : Nat
  deriving DecidableEq

/-- The `n` bytes at address `p` lie inside the arena block (an access of no
bytes touches nothing). -/
def ArenaAllocator.inBuf (arena : ArenaAllocator) (p n : Nat) : Bool :=
  n == 0 || (decide (arena._buf ≤ p) && decide (p + n ≤ arena._buf + arena._buf_len))

/-- Library call `memset(p, v, n)` on the arena block. -/
def memset (arena : ArenaAllocator) (p v n : Nat) : Outcome ArenaAllocator :=
  if arena.inBuf p n then
    .ok { arena with bytes := fun x => if p ≤ x ∧ x < p + n then v else arena.bytes x }
  else .fault arena

/-- Library call `memcpy(dst, src, n)` whose source is memory of the caller
outside the arena block (`&item`, `items`): `src k` is the byte at `src + k`. -/
def memcpy_from (arena : ArenaAllocator) (dst : Nat) (src : Nat → Nat) (n : Nat) :
    Outcome ArenaAllocator :=
  if arena.inBuf dst n then
    .ok { arena with bytes := fun x => if dst ≤ x ∧ x < dst + n then src (x - dst) else arena.bytes x }
  else .fault arena

/-- Library call `memcpy(dst, src, n)` with both pointers into the arena
block.  Overlapping ranges are undefined behaviour. -/
def memcpy (arena : ArenaAllocator) (dst src n : Nat) : Outcome ArenaAllocator :=
  if arena.inBuf src n && (n == 0 || decide (dst + n ≤ src) || decide (src + n ≤ dst)) then
    memcpy_from arena dst (fun k => arena.bytes (src + k)) n
  else .fault arena

/-- Lines 43-47: `Init(size)`.  `calloc_ptr` is the (non-null) pointer that
`CALLOC_OR_DIE<u8>(size)` returned; calloc memory reads as zero. -/
def ArenaAllocator.Init (calloc_ptr size : Nat) : ArenaAllocator :=
  { _buf := calloc_ptr, _buf_len := size, _curr_offset := 0, bytes := fun _ => 0 }

/-- Lines 51-60 of `Alloc`: the value of the local `offset` when line 62 is
reached, i.e. the offset into `_buf` at which the allocation is placed. -/
def ArenaAllocator.alignedOffset (arena : ArenaAllocator) (align : Nat) : Nat :=
  let curr_ptr := (arena._buf + arena._curr_offset) % SIZE_T
  let offset := curr_ptr
  let a := align
  let modulo := offset &&& ((a + SIZE_T - 1) % SIZE_T)
  let offset := if modulo ≠ 0 then (offset + (a + SIZE_T - modulo) % SIZE_T) % SIZE_T else offset
  (offset + SIZE_T - arena._buf) % SIZE_T

/-- Lines 49-73: `template <class T> T *Alloc(size_t count, size_t align)`.
Returns the pointer (`NULL` on failure) and the arena afterwards. -/
def ArenaAllocator.Alloc (arena : ArenaAllocator) (sizeofT count align : Nat) :
    Outcome (Nat × ArenaAllocator) :=
  let offset := arena.alignedOffset align
  let size := (sizeofT * count) % SIZE_T
  if (offset + size) % SIZE_T ≤ arena._buf_len then
    let ptr := (arena._buf + offset) % SIZE_T
    let arena1 := { arena with _curr_offset := (offset + size) % SIZE_T }
    match memset arena1 ptr 0 size with
    | .ok arena2 => .ok (ptr, arena2)
    | .fault arena2 => .fault (ptr, arena2)
  else .ok (NULL, arena)

/-- Lines 75-77: `Free()`. -/
def ArenaAllocator.Free (arena : ArenaAllocator) : ArenaAllocator :=
  { arena with _curr_offset := 0 }

/-- Lines 87-97 of `AddMany`: the growth block. -/
def ArenaArray.grow (sizeofT : Nat) (self : ArenaArray) (item_count : Nat)
    (arena : ArenaAllocator) : Outcome (ArenaArray × ArenaAllocator) :=
  if (self._length + item_count) % SIZE_T > self._capacity then
    let capacity :=
      if self._capacity = 0 then (self._length + item_count) % SIZE_T
      else (self._capacity * 2) % SIZE_T
    let prev_items := self._array
    match arena.Alloc sizeofT capacity DEFAULT_ARENA_ALIGNMENT with
    | .fault (p, arena1) =>
        .fault ({ _array := p, _length := self._length, _capacity := capacity }, arena1)
    | .ok (p, arena1) =>
        let self1 : ArenaArray := { _array := p, _length := self._length, _capacity := capacity }
        match memcpy arena1 p prev_items ((self._length * sizeofT) % SIZE_T) with
        | .ok arena2 => .ok (self1, arena2)
        | .fault arena2 => .fault (self1, arena2)
  else .ok (self, arena)

/-- Lines 86-101: `void AddMany(T *items, size_t item_count, ArenaAllocator
*arena)`.  `items k` is byte `k` of the memory `items` points to. -/
def ArenaArray.AddMany (sizeofT : Nat) (self : ArenaArray) (items : Nat → Nat)
    (item_count : Nat) (arena : ArenaAllocator) : Outcome (ArenaArray × ArenaAllocator) :=
  match self.grow sizeofT item_count arena with
  | .fault s => .fault s
  | .ok (self1, arena1) =>
      let dst := (self1._array + (self1._length * sizeofT) % SIZE_T) % SIZE_T
      match memcpy_from arena1 dst items ((item_count * sizeofT) % SIZE_T) with
      | .ok arena2 =>
          .ok ({ self1 with _length := (self1._length + item_count) % SIZE_T }, arena2)
      | .fault arena2 => .fault (self1, arena2)

/-- Lines 103-105: `void Add(T item, ArenaAllocator *arena)`; `item k` is byte
`k` of the object representation of `item`. -/
def ArenaArray.Add (sizeofT : Nat) (self : ArenaArray) (item : Nat → Nat)
    (arena : ArenaAllocator) : Outcome (ArenaArray × ArenaAllocator) :=
  self.AddMany sizeofT item 1 arena

/-- Line 107: `i32 Length() { return _length; }`; the `size_t` is converted to
`i32` (two's complement, values from `2 ^ 31` on become negative). -/
def ArenaArray.Length (self : ArenaArray) : Int :=
  let low : Nat := self._length % 2 ^ 32
  if low < 2 ^ 31 then (low : Int) else (low : Int) - 2 ^ 32

/-- Lines 109-112: `T &operator[](size_t index)`: the address of the element,
`none` when the assertion `index < _length` fails. -/
def ArenaArray.index (sizeofT : Nat) (self : ArenaArray) (index : Nat) : Option Nat :=
  if index < self._length then some ((self._array + (index * sizeofT) % SIZE_T) % SIZE_T)
  else none

/-- The empty array `ArenaArray<T> a = {0}` (lines 172, 179). -/
def ArenaArray.empty : ArenaArray :=
  { _array := NULL, _length := 0, _capacity := 0 }

/-- The `n` bytes stored at address `p`. -/
def ArenaAllocator.read (arena : ArenaAllocator) (p n : Nat) : List Nat :=
  (List.range n).map (fun k => arena.bytes (p + k))

/-- The elements `a[0], ..., a[_length - 1]` of an array, each as its
`sizeofT` bytes, read through `operator[]`. -/
def ArenaArray.elems (sizeofT : Nat) (self : ArenaArray) (arena : ArenaAllocator) :
    List (List Nat) :=
  (List.range self._length).map (fun i =>
    match self.index sizeofT i with
    | some p => arena.read p sizeofT
    | none => [])

/-- Object representation of an `i32` / `u32` value (little endian, 4 bytes). -/
def i32_bytes (v : Nat) : List Nat :=
  [v % 256, v / 256 % 256, v / 65536 % 256, v / 16777216 % 256]

/-- The memory of a C array `i32 items[] = {v0, v1, ...}`, byte by byte. -/
def i32_items (vs : List Nat) : Nat → Nat :=
  fun k => ((vs.map i32_bytes).flatten).getD k 0

/-- The arena invariant `0 <= cursor <= capacity`. -/
def ArenaAllocator.cursorInv (arena : ArenaAllocator) : Prop :=
  arena._curr_offset ≤ arena._buf_len

/-- One call `Alloc<T>(count, align)`. -/
structure Request where
  sizeofT : Nat
  count : Nat
  align : Nat

/-- The byte ranges `[r.1, r.1 + r.2)` and `[s.1, s.1 + s.2)` have a byte in
common. -/
def rangesOverlap (r s : Nat × Nat) : Prop :=
  max r.1 s.1 < min (r.1 + r.2) (s.1 + s.2)

instance (r s : Nat × Nat) : Decidable (rangesOverlap r s) := by
  unfold rangesOverlap; infer_instance

/-- A sequence of `Alloc` calls on one arena with no `Free` in between: the
ranges handed out by the successful calls, each as (address returned,
`count * sizeof(T)`), in call order.  The run ends at a call with undefined
behaviour. -/
def allocRun (arena : ArenaAllocator) : List Request → List (Nat × Nat)
  | [] => []
  | r :: rs =>
    match arena.Alloc r.sizeofT r.count r.align with
    | .fault _ => []
    | .ok (p, arena1) =>
      if p ≠ NULL then (p, r.count * r.sizeofT) :: allocRun arena1 rs
      else allocRun arena1 rs

/-- An arena that has been used and reset: `Init(8)`, `Alloc<u8>(8)`, the
caller fills the 8 bytes with 255, `Free()`. -/
def usedArena : ArenaAllocator :=
  (memcpy_from ((ArenaAllocator.Init 4096 8).Alloc 1 8 DEFAULT_ARENA_ALIGNMENT).state.2
    ((ArenaAllocator.Init 4096 8).Alloc 1 8 DEFAULT_ARENA_ALIGNMENT).state.1
    (fun _ => 255) 8).state.Free

/-- Object representation of an integer value, little endian: byte `k`. -/
def le_bytes (v : Nat) : Nat → Nat :=
  fun k => v / 256 ^ k % 256

/-- A sequence of `AddMany` calls `(items, item_count)` on one array and one
arena, in order.  The run ends at a call with undefined behaviour. -/
def addRun (sizeofT : Nat) :
    ArenaArray × ArenaAllocator → List ((Nat → Nat) × Nat) → Outcome (ArenaArray × ArenaAllocator)
  | s, [] => .ok s
  | s, c :: cs =>
    match s.1.AddMany sizeofT c.1 c.2 s.2 with
    | .ok s1 => addRun sizeofT s1 cs
    | .fault s1 => .fault s1

/-- The array is consistent with the arena: `length <= capacity`, and the
`_capacity` elements of its storage lie in the part of the block that has
been handed out (or the capacity is 0 and there is no storage yet). -/
def ArenaArray.inArena (sizeofT : Nat) (self : ArenaArray) (arena : ArenaAllocator) : Prop :=
  self._length ≤ self._capacity ∧
  (self._capacity = 0 ∨
    (arena._buf ≤ self._array ∧
      self._array + self._capacity * sizeofT ≤ arena._buf + arena._curr_offset))

/-- The `count` objects of `sizeofT` bytes each in the caller memory `items`,
in order. -/
def itemsOf (sizeofT : Nat) (items : Nat → Nat) (count : Nat) : List (List Nat) :=
  (List.range count).map (fun c => (List.range sizeofT).map (fun k => items (c * sizeofT + k)))

/-! ## Lemmas on the arena -/

theorem mask_eq_mod (x k : Nat) (hk : k < 64) :
    x &&& ((2 ^ k + SIZE_T - 1) % SIZE_T) = x % 2 ^ k := by
  have hlt : 2 ^ k < SIZE_T := Nat.pow_lt_pow_right (by norm_num) hk
  have hpos : 0 < 2 ^ k := Nat.pos_pow_of_pos k (by norm_num)
  have h1 : (2 ^ k + SIZE_T - 1) % SIZE_T = 2 ^ k - 1 := by
    have : 2 ^ k + SIZE_T - 1 = (2 ^ k - 1) + SIZE_T := by omega
    rw [this, Nat.add_mod_right]
    exact Nat.mod_eq_of_lt (by omega)
  rw [h1, Nat.and_pow_two_sub_one_eq_mod]

theorem pow_dvd_SIZE_T (k : Nat) (hk : k < 64) : 2 ^ k ∣ SIZE_T :=
  pow_dvd_pow 2 (Nat.le_of_lt hk)

theorem memset_state (arena : ArenaAllocator) (p v n : Nat) :
    (memset arena p v n).state._buf = arena._buf ∧
    (memset arena p v n).state._buf_len = arena._buf_len ∧
    (memset arena p v n).state._curr_offset = arena._curr_offset := by
  unfold memset
  split <;> simp [Outcome.state]

theorem memcpy_from_state (arena : ArenaAllocator) (dst : Nat) (src : Nat → Nat) (n : Nat) :
    (memcpy_from arena dst src n).state._buf = arena._buf ∧
    (memcpy_from arena dst src n).state._buf_len = arena._buf_len ∧
    (memcpy_from arena dst src n).state._curr_offset = arena._curr_offset := by
  unfold memcpy_from
  split <;> simp [Outcome.state]

theorem memcpy_state (arena : ArenaAllocator) (dst src n : Nat) :
    (memcpy arena dst src n).state._buf = arena._buf ∧
    (memcpy arena dst src n).state._buf_len = arena._buf_len ∧
    (memcpy arena dst src n).state._curr_offset = arena._curr_offset := by
  unfold memcpy
  split
  · exact memcpy_from_state _ _ _ _
  · simp [Outcome.state]

theorem Alloc_state (arena : ArenaAllocator) (sizeofT count align : Nat) :
    (arena.Alloc sizeofT count align).state =
      if (arena.alignedOffset align + (sizeofT * count) % SIZE_T) % SIZE_T ≤ arena._buf_len then
        ((arena._buf + arena.alignedOffset align) % SIZE_T,
          (memset { arena with _curr_offset :=
              (arena.alignedOffset align + (sizeofT * count) % SIZE_T) % SIZE_T }
            ((arena._buf + arena.alignedOffset align) % SIZE_T) 0
            ((sizeofT * count) % SIZE_T)).state)
      else (NULL, arena) := by
  unfold ArenaAllocator.Alloc
  simp only []
  split
  · cases hm : memset _ _ _ _ <;> simp [Outcome.state]
  · simp [Outcome.state]

theorem Alloc_state_cursor (arena : ArenaAllocator) (sizeofT count align : Nat)
    (h : arena.cursorInv) : (arena.Alloc sizeofT count align).state.2.cursorInv := by
  rw [Alloc_state]
  split
  · next hle =>
    simp only [ArenaAllocator.cursorInv, memset_state]
    exact hle
  · exact h

theorem alignedOffset_dvd (arena : ArenaAllocator) (k : Nat) (hk : k < 64)
    (hbuf : arena._buf < SIZE_T) :
    (arena._buf + arena.alignedOffset (2 ^ k)) % 2 ^ k = 0 := by
  have hd : 2 ^ k ∣ SIZE_T := pow_dvd_SIZE_T k hk
  have hpos : 0 < 2 ^ k := Nat.pos_pow_of_pos k (by norm_num)
  unfold ArenaAllocator.alignedOffset
  simp only [mask_eq_mod _ k hk]
  set c := (arena._buf + arena._curr_offset) % SIZE_T with hc
  -- the aligned address, before `_buf` is subtracted
  have key : ∀ o1 : Nat, 2 ^ k ∣ o1 →
      (arena._buf + (o1 + SIZE_T - arena._buf) % SIZE_T) % 2 ^ k = 0 := by
    intro o1 ho1
    apply Nat.mod_eq_zero_of_dvd
    have h1 : (o1 + SIZE_T - arena._buf) % SIZE_T ≡ o1 + SIZE_T - arena._buf [MOD 2 ^ k] :=
      (Nat.mod_modEq _ _).of_dvd hd
    have h2 : arena._buf + (o1 + SIZE_T - arena._buf) % SIZE_T ≡
        arena._buf + (o1 + SIZE_T - arena._buf) [MOD 2 ^ k] := h1.add_left _
    have h3 : arena._buf + (o1 + SIZE_T - arena._buf) = o1 + SIZE_T := by omega
    rw [h3] at h2
    exact (Nat.modEq_zero_iff_dvd.mp (h2.trans (Nat.modEq_zero_iff_dvd.mpr (Nat.dvd_add ho1 hd))))
  apply key
  split
  · next hm =>
    have hmlt : c % 2 ^ k < 2 ^ k := Nat.mod_lt _ hpos
    have hlt : 2 ^ k < SIZE_T := Nat.pow_lt_pow_right (by norm_num) hk
    have e1 : (2 ^ k + SIZE_T - c % 2 ^ k) % SIZE_T = 2 ^ k - c % 2 ^ k := by
      have : 2 ^ k + SIZE_T - c % 2 ^ k = (2 ^ k - c % 2 ^ k) + SIZE_T := by omega
      rw [this, Nat.add_mod_right]
      exact Nat.mod_eq_of_lt (by omega)
    rw [e1]
    apply (Nat.dvd_mod_iff hd).mpr
    have e2 : c + (2 ^ k - c % 2 ^ k) = 2 ^ k * (c / 2 ^ k) + 2 ^ k := by
      have := Nat.div_add_mod c (2 ^ k)
      omega
    rw [e2]
    exact Nat.dvd_add (Nat.dvd_mul_right _ _) (Nat.dvd_refl _)
  · next hm =>
    have : c % 2 ^ k = 0 := by simpa using hm
    exact Nat.dvd_of_mod_eq_zero this

theorem alignedOffset_eq (arena : ArenaAllocator) (k o : Nat) (hk : k < 64)
    (hge : arena._curr_offset ≤ o) (hal : (arena._buf + o) % 2 ^ k = 0)
    (hfirst : ∀ o2, arena._curr_offset ≤ o2 → (arena._buf + o2) % 2 ^ k = 0 → o ≤ o2)
    (hlt : arena._buf + o < SIZE_T) :
    arena.alignedOffset (2 ^ k) = o := by
  have hpos : 0 < 2 ^ k := Nat.pos_pow_of_pos k (by norm_num)
  have ha : 2 ^ k < SIZE_T := Nat.pow_lt_pow_right (by norm_num) hk
  unfold ArenaAllocator.alignedOffset
  simp only [mask_eq_mod _ k hk]
  have hc : (arena._buf + arena._curr_offset) % SIZE_T = arena._buf + arena._curr_offset :=
    Nat.mod_eq_of_lt (by omega)
  rw [hc]
  generalize hA : (2 : Nat) ^ k = a at *
  by_cases hm : (arena._buf + arena._curr_offset) % a = 0
  · have ho : o = arena._curr_offset := Nat.le_antisymm (hfirst _ (Nat.le_refl _) hm) hge
    simp only [hm, ne_eq, not_true_eq_false, if_false]
    have : arena._buf + arena._curr_offset + SIZE_T - arena._buf = arena._curr_offset + SIZE_T := by
      omega
    rw [this, Nat.add_mod_right, ho]
    exact Nat.mod_eq_of_lt (by omega)
  · simp only [ne_eq, hm, not_false_eq_true, if_true]
    have hmlt : (arena._buf + arena._curr_offset) % a < a := Nat.mod_lt _ hpos
    have hdm := Nat.div_add_mod (arena._buf + arena._curr_offset) a
    have hdo := Nat.div_add_mod (arena._buf + o) a
    rw [hal] at hdo
    set q := (arena._buf + arena._curr_offset) / a
    set q2 := (arena._buf + o) / a
    set m := (arena._buf + arena._curr_offset) % a
    have hq : q + 1 ≤ q2 := by
      by_contra hcon
      have : a * q2 ≤ a * q := Nat.mul_le_mul_left a (by omega)
      omega
    have hq2 : a * q + a ≤ a * q2 := by
      have := Nat.mul_le_mul_left a hq
      rw [Nat.mul_add, Nat.mul_one] at this
      exact this
    have hle : o ≤ arena._curr_offset + (a - m) := by
      apply hfirst
      · omega
      · have : arena._buf + (arena._curr_offset + (a - m)) = a * (q + 1) := by
          rw [Nat.mul_add, Nat.mul_one]; omega
        rw [this]
        exact Nat.mul_mod_right _ _
    have e1 : (a + SIZE_T - m) % SIZE_T = a - m := by
      have : a + SIZE_T - m = (a - m) + SIZE_T := by omega
      rw [this, Nat.add_mod_right]
      exact Nat.mod_eq_of_lt (by omega)
    rw [e1]
    have e2 : (arena._buf + arena._curr_offset + (a - m)) % SIZE_T = arena._buf + o := by
      rw [Nat.mod_eq_of_lt (by omega)]
      omega
    rw [e2]
    have : arena._buf + o + SIZE_T - arena._buf = o + SIZE_T := by omega
    rw [this, Nat.add_mod_right]
    exact Nat.mod_eq_of_lt (by omega)

theorem Alloc_eq_of_fit (arena : ArenaAllocator) (sizeofT count align o : Nat)
    (hblock : arena._buf + arena._buf_len < SIZE_T)
    (hoff : arena.alignedOffset (align) = o)
    (hfit : o + count * sizeofT ≤ arena._buf_len) :
    arena.Alloc sizeofT count (align) =
      .ok (arena._buf + o,
        { arena with
          _curr_offset := o + count * sizeofT
          bytes := fun x =>
            if arena._buf + o ≤ x ∧ x < arena._buf + o + count * sizeofT then 0
            else arena.bytes x }) := by
  have hsz : (sizeofT * count) % SIZE_T = count * sizeofT := by
    rw [Nat.mul_comm]; exact Nat.mod_eq_of_lt (by omega)
  have hsum : (o + count * sizeofT) % SIZE_T = o + count * sizeofT :=
    Nat.mod_eq_of_lt (by omega)
  have hptr : (arena._buf + o) % SIZE_T = arena._buf + o := Nat.mod_eq_of_lt (by omega)
  unfold ArenaAllocator.Alloc
  simp only [hoff, hsz, hsum, hptr, hfit, if_true]
  have hin : ({ arena with _curr_offset := o + count * sizeofT } : ArenaAllocator).inBuf
      (arena._buf + o) (count * sizeofT) = true := by
    simp [ArenaAllocator.inBuf]
    right; omega
  simp [memset, hin]

theorem alignedOffset_ge (arena : ArenaAllocator) (k : Nat) (hk : k < 64)
    (hbuf : 0 < arena._buf) (hcur : arena._buf + arena._curr_offset < SIZE_T) :
    arena._curr_offset ≤ arena.alignedOffset (2 ^ k) ∧
    arena._buf + arena.alignedOffset (2 ^ k) ≤ SIZE_T := by
  have hpos : 0 < 2 ^ k := Nat.pos_pow_of_pos k (by norm_num)
  have ha : 2 ^ k < SIZE_T := Nat.pow_lt_pow_right (by norm_num) hk
  obtain ⟨s, hs⟩ := pow_dvd_SIZE_T k hk
  unfold ArenaAllocator.alignedOffset
  simp only [mask_eq_mod _ k hk]
  have hc : (arena._buf + arena._curr_offset) % SIZE_T = arena._buf + arena._curr_offset :=
    Nat.mod_eq_of_lt hcur
  rw [hc]
  generalize hA : (2 : Nat) ^ k = a at *
  by_cases hm : (arena._buf + arena._curr_offset) % a = 0
  · simp only [hm, ne_eq, not_true_eq_false, if_false]
    have : arena._buf + arena._curr_offset + SIZE_T - arena._buf = arena._curr_offset + SIZE_T := by
      omega
    rw [this, Nat.add_mod_right, Nat.mod_eq_of_lt (by omega)]
    omega
  · simp only [ne_eq, hm, not_false_eq_true, if_true]
    have hmlt : (arena._buf + arena._curr_offset) % a < a := Nat.mod_lt _ hpos
    have hdm := Nat.div_add_mod (arena._buf + arena._curr_offset) a
    set q := (arena._buf + arena._curr_offset) / a
    set m := (arena._buf + arena._curr_offset) % a
    have hq : q + 1 ≤ s := by
      by_contra hcon
      have : a * s ≤ a * q := Nat.mul_le_mul_left a (by omega)
      omega
    have hq2 : a * q + a ≤ a * s := by
      have := Nat.mul_le_mul_left a hq
      rw [Nat.mul_add, Nat.mul_one] at this
      exact this
    have e1 : (a + SIZE_T - m) % SIZE_T = a - m := by
      have : a + SIZE_T - m = (a - m) + SIZE_T := by omega
      rw [this, Nat.add_mod_right]
      exact Nat.mod_eq_of_lt (by omega)
    rw [e1]
    rcases Nat.lt_or_ge (arena._buf + arena._curr_offset + (a - m)) SIZE_T with hlt | hge
    · rw [Nat.mod_eq_of_lt hlt]
      have : arena._buf + arena._curr_offset + (a - m) + SIZE_T - arena._buf =
          arena._curr_offset + (a - m) + SIZE_T := by omega
      rw [this, Nat.add_mod_right, Nat.mod_eq_of_lt (by omega)]
      omega
    · have heq : arena._buf + arena._curr_offset + (a - m) = SIZE_T := by omega
      rw [heq, Nat.mod_self, Nat.zero_add, Nat.mod_eq_of_lt (by omega)]
      omega

/-- What a successful `Alloc` does to a well-formed arena: the range starts at
or after the cursor, lies in the block, and the cursor moves to its end. -/
theorem Alloc_ok_bump (arena arena1 : ArenaAllocator) (sizeofT count k p : Nat) (hk : k < 64)
    (hbuf : 0 < arena._buf) (hblock : arena._buf + arena._buf_len < SIZE_T)
    (hinv : arena.cursorInv)
    (h : arena.Alloc sizeofT count (2 ^ k) = .ok (p, arena1)) (hp : p ≠ NULL) :
    arena._buf + arena._curr_offset ≤ p ∧
    p + (sizeofT * count) % SIZE_T = arena1._buf + arena1._curr_offset ∧
    arena1._buf = arena._buf ∧ arena1._buf_len = arena._buf_len ∧ arena1.cursorInv ∧
    (∀ i, i < (sizeofT * count) % SIZE_T → arena1.bytes (p + i) = 0) ∧
    (∀ x, x < p ∨ p + (sizeofT * count) % SIZE_T ≤ x → arena1.bytes x = arena.bytes x) := by
  have hinv2 : arena._curr_offset ≤ arena._buf_len := hinv
  obtain ⟨hge, hle⟩ := alignedOffset_ge arena k hk hbuf (by omega)
  unfold ArenaAllocator.Alloc at h
  simp only [] at h
  split at h
  · next hchk =>
    set off := arena.alignedOffset (2 ^ k)
    set size := (sizeofT * count) % SIZE_T
    cases hin : ({ arena with _curr_offset := (off + size) % SIZE_T } : ArenaAllocator).inBuf
        ((arena._buf + off) % SIZE_T) size
    · simp [memset, hin] at h
    · simp only [memset, hin, if_true, Outcome.ok.injEq, Prod.mk.injEq] at h
      obtain ⟨h1, h2⟩ := h
      subst h2
      simp only [ArenaAllocator.cursorInv]
      simp only [ArenaAllocator.inBuf, Bool.or_eq_true, beq_iff_eq, Bool.and_eq_true,
        decide_eq_true_eq] at hin
      have hoff : off < SIZE_T := Nat.mod_lt _ (by norm_num)
      have hnowrap : arena._buf + off < SIZE_T := by
        by_contra hcon
        have : arena._buf + off = SIZE_T := by omega
        rw [this, Nat.mod_self] at h1
        exact hp h1.symm
      rw [Nat.mod_eq_of_lt hnowrap] at h1 hin
      have hsum : off + size ≤ arena._buf_len := by
        rcases hin with h0 | ⟨_, hb⟩
        · rw [h0, Nat.add_zero, Nat.mod_eq_of_lt hoff] at hchk
          omega
        · omega
      rw [Nat.mod_eq_of_lt (by omega)]
      refine ⟨by omega, by omega, by simp, by simp, hsum, ?_, ?_⟩
      · intro i hi
        have : arena._buf + off ≤ p + i ∧ p + i < arena._buf + off + size := by omega
        simp only [Nat.mod_eq_of_lt hnowrap]
        rw [if_pos this]
      · intro x hx
        have : ¬ (arena._buf + off ≤ x ∧ x < arena._buf + off + size) := by omega
        simp only [Nat.mod_eq_of_lt hnowrap]
        rw [if_neg this]
  · simp only [Outcome.ok.injEq, Prod.mk.injEq] at h
    exact absurd h.1.symm hp

/-- In a well-formed arena a null result means the capacity check failed, and
the arena is as it was. -/
theorem Alloc_null_unchanged (arena arena1 : ArenaAllocator) (sizeofT count k : Nat)
    (hk : k < 64) (hbuf : 0 < arena._buf) (hblock : arena._buf + arena._buf_len < SIZE_T)
    (hinv : arena.cursorInv)
    (h : arena.Alloc sizeofT count (2 ^ k) = .ok (NULL, arena1)) :
    arena1 = arena ∧
    ¬ (arena.alignedOffset (2 ^ k) + (sizeofT * count) % SIZE_T) % SIZE_T ≤ arena._buf_len := by
  have hinv2 : arena._curr_offset ≤ arena._buf_len := hinv
  obtain ⟨hge, hle⟩ := alignedOffset_ge arena k hk hbuf (by omega)
  unfold ArenaAllocator.Alloc at h
  simp only [] at h
  split at h
  · next hchk =>
    exfalso
    set off := arena.alignedOffset (2 ^ k)
    set size := (sizeofT * count) % SIZE_T
    cases hin : ({ arena with _curr_offset := (off + size) % SIZE_T } : ArenaAllocator).inBuf
        ((arena._buf + off) % SIZE_T) size
    · simp [memset, hin] at h
    · simp only [memset, hin, if_true, Outcome.ok.injEq, Prod.mk.injEq] at h
      obtain ⟨h1, -⟩ := h
      simp only [ArenaAllocator.inBuf, Bool.or_eq_true, beq_iff_eq, Bool.and_eq_true,
        decide_eq_true_eq] at hin
      have hoff : off < SIZE_T := Nat.mod_lt _ (by norm_num)
      have hfull : arena._buf + off = SIZE_T := by
        by_contra hcon
        rw [Nat.mod_eq_of_lt (by omega)] at h1
        simp only [NULL] at h1
        omega
      rw [h1] at hin
      rcases hin with h0 | ⟨hb, _⟩
      · rw [h0, Nat.add_zero, Nat.mod_eq_of_lt hoff] at hchk
        omega
      · simp only [NULL] at hb
        omega
  · next hchk =>
    simp only [Outcome.ok.injEq, Prod.mk.injEq] at h
    exact ⟨h.2.symm, hchk⟩

/-- Between resets, when no request size wraps around, the ranges handed out
lie at or after the cursor and are pairwise disjoint. -/
theorem allocRun_disjoint (reqs : List Request) :
    ∀ arena : ArenaAllocator, 0 < arena._buf → arena._buf + arena._buf_len < SIZE_T →
      arena.cursorInv → (∀ r ∈ reqs, ∃ k, k < 64 ∧ r.align = 2 ^ k) →
      (∀ r ∈ reqs, r.sizeofT * r.count < SIZE_T) →
      (∀ x ∈ allocRun arena reqs, arena._buf + arena._curr_offset ≤ x.1) ∧
      (allocRun arena reqs).Pairwise (fun r s => ¬ rangesOverlap r s) := by
  induction reqs with
  | nil => intro arena _ _ _ _ _; simp [allocRun]
  | cons r rs ih =>
    intro arena hbuf hblock hinv hpow hsz
    obtain ⟨k, hk, hal⟩ := hpow r (List.mem_cons_self _ _)
    have hsz1 := hsz r (List.mem_cons_self _ _)
    have hpow2 : ∀ r2 ∈ rs, ∃ k, k < 64 ∧ r2.align = 2 ^ k :=
      fun r2 h2 => hpow r2 (List.mem_cons_of_mem _ h2)
    have hsz2 : ∀ r2 ∈ rs, r2.sizeofT * r2.count < SIZE_T :=
      fun r2 h2 => hsz r2 (List.mem_cons_of_mem _ h2)
    unfold allocRun
    cases hA : arena.Alloc r.sizeofT r.count r.align with
    | fault s => simp
    | ok s =>
      obtain ⟨p, arena1⟩ := s
      simp only []
      by_cases hp : p = NULL
      · -- a failed call leaves the arena as it was
        have harena : arena1 = arena := by
          rw [hal, hp] at hA
          exact (Alloc_null_unchanged arena arena1 r.sizeofT r.count k hk hbuf hblock hinv hA).1
        subst harena
        simp only [hp, ne_eq, not_true_eq_false, if_false]
        exact ih arena1 hbuf hblock hinv hpow2 hsz2
      · simp only [ne_eq, hp, not_false_eq_true, if_true]
        rw [hal] at hA
        obtain ⟨h1, h2, h3, h4, h5, -, -⟩ :=
          Alloc_ok_bump arena arena1 r.sizeofT r.count k p hk hbuf hblock hinv hA hp
        obtain ⟨ihl, ihp⟩ := ih arena1 (by omega) (by omega) h5 hpow2 hsz2
        rw [Nat.mod_eq_of_lt hsz1] at h2
        refine ⟨?_, ?_⟩
        · intro x hx
          rcases List.mem_cons.mp hx with rfl | hx
          · exact h1
          · have := ihl x hx
            omega
        · refine List.Pairwise.cons ?_ ihp
          intro x hx
          have := ihl x hx
          simp only [rangesOverlap]
          have e : r.count * r.sizeofT = r.sizeofT * r.count := Nat.mul_comm _ _
          omega

/-- The capacity bound when nothing wraps around: if the padded offset plus
`count * sizeof(T)` exceeds the capacity and is below `2 ^ 64`, `Alloc`
returns `NULL` and leaves the arena as it was. -/
theorem Alloc_fails_of_no_space (arena : ArenaAllocator) (sizeofT count align : Nat)
    (hbig : arena._buf_len < arena.alignedOffset align + count * sizeofT)
    (hnowrap : arena.alignedOffset align + count * sizeofT < SIZE_T) :
    arena.Alloc sizeofT count align = .ok (NULL, arena) := by
  have hsz : (sizeofT * count) % SIZE_T = count * sizeofT := by
    rw [Nat.mul_comm]; exact Nat.mod_eq_of_lt (by omega)
  unfold ArenaAllocator.Alloc
  simp only [hsz, Nat.mod_eq_of_lt hnowrap]
  rw [if_neg (by omega)]

/-- Zero-init for the bytes `Alloc` does clear: after a successful call on a
well-formed arena the `sizeof(T) * count mod 2 ^ 64` bytes from the returned
address read as zero, whatever the block held before. -/
theorem Alloc_zeroes_range (arena arena1 : ArenaAllocator) (sizeofT count k p : Nat)
    (hk : k < 64) (hbuf : 0 < arena._buf) (hblock : arena._buf + arena._buf_len < SIZE_T)
    (hinv : arena.cursorInv)
    (h : arena.Alloc sizeofT count (2 ^ k) = .ok (p, arena1)) (hp : p ≠ NULL) :
    ∀ i, i < (sizeofT * count) % SIZE_T → arena1.bytes (p + i) = 0 :=
  (Alloc_ok_bump arena arena1 sizeofT count k p hk hbuf hblock hinv h hp).2.2.2.2.2.1

/-! ## Lemmas on the array -/

theorem grow_state (sizeofT : Nat) (self : ArenaArray) (item_count : Nat)
    (arena : ArenaAllocator)
    (h : self._capacity < (self._length + item_count) % SIZE_T) :
    (self.grow sizeofT item_count arena).state.1._capacity =
      (if self._capacity = 0 then (self._length + item_count) % SIZE_T
        else (self._capacity * 2) % SIZE_T) ∧
    (self.grow sizeofT item_count arena).state.1._array =
      (arena.Alloc sizeofT
        (if self._capacity = 0 then (self._length + item_count) % SIZE_T
          else (self._capacity * 2) % SIZE_T) DEFAULT_ARENA_ALIGNMENT).state.1 ∧
    (self.grow sizeofT item_count arena).state.2._curr_offset =
      (arena.Alloc sizeofT
        (if self._capacity = 0 then (self._length + item_count) % SIZE_T
          else (self._capacity * 2) % SIZE_T) DEFAULT_ARENA_ALIGNMENT).state.2._curr_offset := by
  unfold ArenaArray.grow
  rw [if_pos h]
  simp only []
  generalize (if self._capacity = 0 then (self._length + item_count) % SIZE_T
        else (self._capacity * 2) % SIZE_T) = cap
  cases hA : arena.Alloc sizeofT cap DEFAULT_ARENA_ALIGNMENT with
  | fault s => obtain ⟨p, a1⟩ := s; simp [Outcome.state]
  | ok s =>
    obtain ⟨p, a1⟩ := s
    simp only []
    cases hm : memcpy a1 p self._array ((self._length * sizeofT) % SIZE_T) with
    | fault a =>
      have := (memcpy_state a1 p self._array ((self._length * sizeofT) % SIZE_T)).2.2
      rw [hm] at this
      simpa [Outcome.state] using this
    | ok a =>
      have := (memcpy_state a1 p self._array ((self._length * sizeofT) % SIZE_T)).2.2
      rw [hm] at this
      simpa [Outcome.state] using this

theorem AddMany_state_of_grow (sizeofT : Nat) (self : ArenaArray) (items : Nat → Nat)
    (item_count : Nat) (arena : ArenaAllocator) :
    (self.AddMany sizeofT items item_count arena).state.1._capacity =
      (self.grow sizeofT item_count arena).state.1._capacity ∧
    (self.AddMany sizeofT items item_count arena).state.1._array =
      (self.grow sizeofT item_count arena).state.1._array ∧
    (self.AddMany sizeofT items item_count arena).state.2._curr_offset =
      (self.grow sizeofT item_count arena).state.2._curr_offset := by
  unfold ArenaArray.AddMany
  cases hg : self.grow sizeofT item_count arena with
  | fault s => simp [Outcome.state]
  | ok s =>
    obtain ⟨self1, arena1⟩ := s
    simp only []
    cases hm : memcpy_from arena1
        ((self1._array + (self1._length * sizeofT) % SIZE_T) % SIZE_T) items
        ((item_count * sizeofT) % SIZE_T) with
    | fault a =>
      have := (memcpy_from_state arena1
        ((self1._array + (self1._length * sizeofT) % SIZE_T) % SIZE_T) items
        ((item_count * sizeofT) % SIZE_T)).2.2
      rw [hm] at this
      simpa [Outcome.state] using this
    | ok a =>
      have := (memcpy_from_state arena1
        ((self1._array + (self1._length * sizeofT) % SIZE_T) % SIZE_T) items
        ((item_count * sizeofT) % SIZE_T)).2.2
      rw [hm] at this
      simpa [Outcome.state] using this

theorem inBuf_iff (arena : ArenaAllocator) (p n : Nat) :
    arena.inBuf p n = true ↔
      n = 0 ∨ (arena._buf ≤ p ∧ p + n ≤ arena._buf + arena._buf_len) := by
  simp [ArenaAllocator.inBuf]

theorem memcpy_from_ok (arena : ArenaAllocator) (dst : Nat) (src : Nat → Nat) (n : Nat)
    (h : n = 0 ∨ (arena._buf ≤ dst ∧ dst + n ≤ arena._buf + arena._buf_len)) :
    memcpy_from arena dst src n =
      .ok { arena with
        bytes := fun x => if dst ≤ x ∧ x < dst + n then src (x - dst) else arena.bytes x } := by
  unfold memcpy_from
  rw [if_pos ((inBuf_iff arena dst n).mpr h)]

theorem memcpy_from_fault (arena : ArenaAllocator) (dst : Nat) (src : Nat → Nat) (n : Nat)
    (hn : 0 < n) (h : dst < arena._buf) :
    memcpy_from arena dst src n = .fault arena := by
  unfold memcpy_from
  have : arena.inBuf dst n = false := by
    cases hb : arena.inBuf dst n
    · rfl
    · rcases (inBuf_iff arena dst n).mp hb with h0 | ⟨h1, _⟩ <;> omega
  simp [this]

theorem memcpy_ok (arena : ArenaAllocator) (dst src n : Nat)
    (hs : n = 0 ∨ (arena._buf ≤ src ∧ src + n ≤ arena._buf + arena._buf_len))
    (hd : n = 0 ∨ (arena._buf ≤ dst ∧ dst + n ≤ arena._buf + arena._buf_len))
    (hno : n = 0 ∨ dst + n ≤ src ∨ src + n ≤ dst) :
    memcpy arena dst src n =
      .ok { arena with
        bytes := fun x =>
          if dst ≤ x ∧ x < dst + n then arena.bytes (src + (x - dst)) else arena.bytes x } := by
  unfold memcpy
  have h1 : (arena.inBuf src n && (n == 0 || decide (dst + n ≤ src) || decide (src + n ≤ dst)))
      = true := by
    simp only [Bool.and_eq_true, Bool.or_eq_true, beq_iff_eq, decide_eq_true_eq]
    exact ⟨(inBuf_iff arena src n).mpr hs, by omega⟩
  rw [if_pos h1]
  exact memcpy_from_ok arena dst _ n hd

theorem memcpy_null_fault (arena : ArenaAllocator) (src n : Nat) (hbuf : 0 < arena._buf)
    (hn : 0 < n) : (memcpy arena NULL src n).isOk = false := by
  unfold memcpy
  split
  · rw [memcpy_from_fault arena NULL _ n hn hbuf]; rfl
  · rfl

theorem AddMany_eq_of_grow (sz : Nat) (self self1 : ArenaArray) (items : Nat → Nat)
    (count : Nat) (arena arena1 : ArenaAllocator)
    (hg : self.grow sz count arena = .ok (self1, arena1)) (dst n : Nat)
    (hdst : (self1._array + (self1._length * sz) % SIZE_T) % SIZE_T = dst)
    (hn : (count * sz) % SIZE_T = n)
    (hin : n = 0 ∨ (arena1._buf ≤ dst ∧ dst + n ≤ arena1._buf + arena1._buf_len)) :
    self.AddMany sz items count arena =
      .ok ({ self1 with _length := (self1._length + count) % SIZE_T },
        { arena1 with
          bytes := fun x => if dst ≤ x ∧ x < dst + n then items (x - dst) else arena1.bytes x }) := by
  unfold ArenaArray.AddMany
  rw [hg]
  simp only [hdst, hn]
  rw [memcpy_from_ok arena1 dst items n hin]

theorem AddMany_fault_of_grow (sz : Nat) (self : ArenaArray) (items : Nat → Nat)
    (count : Nat) (arena : ArenaAllocator)
    (hg : (self.grow sz count arena).isOk = false) :
    (self.AddMany sz items count arena).isOk = false := by
  unfold ArenaArray.AddMany
  cases h : self.grow sz count arena with
  | fault s => rfl
  | ok s => rw [h] at hg; simp [Outcome.isOk] at hg

theorem grow_eq_of_alloc (sz : Nat) (self : ArenaArray) (count newcap p : Nat)
    (arena arena1 : ArenaAllocator)
    (h : self._capacity < (self._length + count) % SIZE_T)
    (hcap : (if self._capacity = 0 then (self._length + count) % SIZE_T
        else (self._capacity * 2) % SIZE_T) = newcap)
    (hA : arena.Alloc sz newcap DEFAULT_ARENA_ALIGNMENT = .ok (p, arena1)) :
    self.grow sz count arena =
      match memcpy arena1 p self._array ((self._length * sz) % SIZE_T) with
      | .ok arena2 =>
          .ok ({ _array := p, _length := self._length, _capacity := newcap }, arena2)
      | .fault arena2 =>
          .fault ({ _array := p, _length := self._length, _capacity := newcap }, arena2) := by
  unfold ArenaArray.grow
  rw [if_pos h]
  simp only [hcap, hA]

theorem grow_fault_of_alloc (sz : Nat) (self : ArenaArray) (count newcap : Nat)
    (arena : ArenaAllocator) (s : Nat × ArenaAllocator)
    (h : self._capacity < (self._length + count) % SIZE_T)
    (hcap : (if self._capacity = 0 then (self._length + count) % SIZE_T
        else (self._capacity * 2) % SIZE_T) = newcap)
    (hA : arena.Alloc sz newcap DEFAULT_ARENA_ALIGNMENT = .fault s) :
    (self.grow sz count arena).isOk = false := by
  unfold ArenaArray.grow
  rw [if_pos h]
  simp only [hcap, hA]
  rfl

theorem AddMany_fault_of_dst (sz : Nat) (self self1 : ArenaArray) (items : Nat → Nat)
    (count : Nat) (arena arena1 : ArenaAllocator)
    (hg : self.grow sz count arena = .ok (self1, arena1)) (dst n : Nat)
    (hdst : (self1._array + (self1._length * sz) % SIZE_T) % SIZE_T = dst)
    (hn : (count * sz) % SIZE_T = n) (hpos : 0 < n) (hlt : dst < arena1._buf) :
    (self.AddMany sz items count arena).isOk = false := by
  unfold ArenaArray.AddMany
  rw [hg]
  simp only [hdst, hn]
  rw [memcpy_from_fault arena1 dst items n hpos hlt]
  rfl

/-- One `AddMany` call for which a single growth step makes enough room
(capacity 0, or `length + count <= 2 * capacity`), on a well-formed arena,
with no size wrapping around, and which runs without undefined behaviour (so
its growth allocation, if any, succeeded): the call appends.  The array stays
consistent with the arena, the old elements keep their bytes and the new ones
are the bytes of `items`. -/
theorem AddMany_ok_step (sz : Nat) (self : ArenaArray) (items : Nat → Nat) (count : Nat)
    (arena : ArenaAllocator)
    (hsz : 0 < sz) (hbuf : 0 < arena._buf) (hblock : arena._buf + arena._buf_len < SIZE_T)
    (hinv : arena.cursorInv) (hv : self.inArena sz arena)
    (hfit : self._capacity = 0 ∨ self._length + count ≤ 2 * self._capacity)
    (hsize : sz * (2 * self._capacity + self._length + count) < SIZE_T)
    (hok : (self.AddMany sz items count arena).isOk = true) :
    ∃ self1 arena1, self.AddMany sz items count arena = .ok (self1, arena1) ∧
      arena1._buf = arena._buf ∧ arena1._buf_len = arena._buf_len ∧ arena1.cursorInv ∧
      self1.inArena sz arena1 ∧
      self1._length = self._length + count ∧
      self1._capacity =
        (if self._length + count ≤ self._capacity then self._capacity
          else if self._capacity = 0 then self._length + count else 2 * self._capacity) ∧
      (∀ j, j < self._length * sz →
        arena1.bytes (self1._array + j) = arena.bytes (self._array + j)) ∧
      (∀ j, j < count * sz →
        arena1.bytes (self1._array + self._length * sz + j) = items j) := by
  obtain ⟨hlen, hstore⟩ := hv
  have hinv2 : arena._curr_offset ≤ arena._buf_len := hinv
  -- sizes in bytes, none of which wraps around
  have hT : 2 * self._capacity + self._length + count < SIZE_T :=
    Nat.lt_of_le_of_lt (Nat.le_mul_of_pos_left _ hsz) hsize
  have hL : self._length * sz ≤ self._capacity * sz := Nat.mul_le_mul_right sz hlen
  have hLC : (self._length + count) * sz = self._length * sz + count * sz := Nat.add_mul _ _ _
  have hK2 : self._capacity * 2 * sz = 2 * (self._capacity * sz) := by ring
  have hbig : self._capacity * sz + self._capacity * sz + self._length * sz + count * sz
      < SIZE_T := by
    have : sz * (2 * self._capacity + self._length + count) =
        self._capacity * sz + self._capacity * sz + self._length * sz + count * sz := by ring
    omega
  have hLmod : (self._length * sz) % SIZE_T = self._length * sz := Nat.mod_eq_of_lt (by omega)
  have hCmod : (count * sz) % SIZE_T = count * sz := Nat.mod_eq_of_lt (by omega)
  have hsum : (self._length + count) % SIZE_T = self._length + count :=
    Nat.mod_eq_of_lt (by omega)
  by_cases hneed : self._length + count ≤ self._capacity
  · -- no growth
    have hg : self.grow sz count arena = .ok (self, arena) := by
      unfold ArenaArray.grow
      rw [if_neg (by omega)]
    have hLCK : self._length * sz + count * sz ≤ self._capacity * sz := by
      rw [← hLC]; exact Nat.mul_le_mul_right sz hneed
    rcases hstore with h0 | ⟨hs1, hs2⟩
    · -- capacity 0: nothing to append
      have hc0 : count = 0 := by omega
      have hl0 : self._length = 0 := by omega
      have hn : (count * sz) % SIZE_T = 0 := by rw [hc0]; simp
      have hA := AddMany_eq_of_grow sz self self items count arena arena hg _ 0 rfl hn
        (Or.inl rfl)
      refine ⟨_, _, hA, rfl, rfl, hinv, ⟨?_, Or.inl h0⟩, ?_, ?_, ?_, ?_⟩
      · show (self._length + count) % SIZE_T ≤ self._capacity
        omega
      · exact hsum
      · rw [if_pos hneed]
      · intro j hj; rw [hl0] at hj; omega
      · intro j hj; rw [hc0] at hj; omega
    · have hdst : (self._array + (self._length * sz) % SIZE_T) % SIZE_T =
          self._array + self._length * sz := by
        rw [hLmod]; exact Nat.mod_eq_of_lt (by omega)
      have hA := AddMany_eq_of_grow sz self self items count arena arena hg _ _ hdst hCmod
        (Or.inr ⟨by omega, by omega⟩)
      refine ⟨_, _, hA, rfl, rfl, hinv, ⟨?_, Or.inr ⟨hs1, hs2⟩⟩, ?_, ?_, ?_, ?_⟩
      · show (self._length + count) % SIZE_T ≤ self._capacity
        omega
      · exact hsum
      · rw [if_pos hneed]
      · intro j hj
        dsimp only
        rw [if_neg (by omega)]
      · intro j hj
        dsimp only
        rw [if_pos (by omega)]
        congr 1
        omega
  · -- growth
    have hgt : self._capacity < (self._length + count) % SIZE_T := by omega
    have hcount : 0 < count := by omega
    have hCpos : 0 < count * sz := Nat.mul_pos hcount hsz
    obtain ⟨newcap, hnc⟩ : ∃ n, n =
        (if self._capacity = 0 then self._length + count else 2 * self._capacity) := ⟨_, rfl⟩
    have hcap : (if self._capacity = 0 then (self._length + count) % SIZE_T
        else (self._capacity * 2) % SIZE_T) = newcap := by
      rw [hnc, hsum]
      split
      · rfl
      · rw [Nat.mod_eq_of_lt (by omega)]; omega
    have hfitN : self._length + count ≤ newcap := by rw [hnc]; split <;> omega
    have hN : newcap * sz ≤
        self._capacity * sz + self._capacity * sz + self._length * sz + count * sz := by
      rw [hnc]
      split
      · rw [hLC]; omega
      · rw [show 2 * self._capacity * sz = self._capacity * sz + self._capacity * sz by ring]
        omega
    have hNmod : (sz * newcap) % SIZE_T = newcap * sz := by
      rw [Nat.mul_comm]; exact Nat.mod_eq_of_lt (by omega)
    have hLCN : self._length * sz + count * sz ≤ newcap * sz := by
      rw [← hLC]; exact Nat.mul_le_mul_right sz hfitN
    cases hA : arena.Alloc sz newcap DEFAULT_ARENA_ALIGNMENT with
    | fault s =>
      have := AddMany_fault_of_grow sz self items count arena
        (grow_fault_of_alloc sz self count newcap arena s hgt hcap hA)
      rw [this] at hok
      exact absurd hok (by simp)
    | ok s =>
      obtain ⟨p, a1⟩ := s
      have hg := grow_eq_of_alloc sz self count newcap p arena a1 hgt hcap hA
      rw [hLmod] at hg
      have hA16 : arena.Alloc sz newcap (2 ^ 4) = .ok (p, a1) := hA
      by_cases hp : p = NULL
      · exfalso
        rw [hp] at hA16 hg
        obtain ⟨ha1, -⟩ := Alloc_null_unchanged arena a1 sz newcap 4 (by norm_num) hbuf hblock
          hinv hA16
        subst ha1
        by_cases hL0 : self._length * sz = 0
        · rw [hL0, memcpy_ok a1 NULL self._array 0 (Or.inl rfl) (Or.inl rfl) (Or.inl rfl)] at hg
          simp only [] at hg
          have hf : (self.AddMany sz items count a1).isOk = false :=
            AddMany_fault_of_dst sz self _ items count a1 _ hg 0 (count * sz)
              (by dsimp only; rw [hL0]; rfl) hCmod hCpos hbuf
          rw [hf] at hok
          exact absurd hok (by simp)
        · have hm := memcpy_null_fault a1 self._array (self._length * sz) hbuf (by omega)
          have hgf : (self.grow sz count a1).isOk = false := by
            rw [hg]
            cases hmm : memcpy a1 NULL self._array (self._length * sz) with
            | ok a => rw [hmm] at hm; simp [Outcome.isOk] at hm
            | fault a => rfl
          have hf := AddMany_fault_of_grow sz self items count a1 hgf
          rw [hf] at hok
          exact absurd hok (by simp)
      · obtain ⟨b1, b2, b3, b4, b5, -, b7⟩ :=
          Alloc_ok_bump arena a1 sz newcap 4 p (by norm_num) hbuf hblock hinv hA16 hp
        rw [hNmod] at b2 b7
        have b5x : a1._curr_offset ≤ a1._buf_len := b5
        have hsrc : self._length * sz = 0 ∨
            (a1._buf ≤ self._array ∧ self._array + self._length * sz ≤ a1._buf + a1._buf_len) := by
          rcases hstore with h0 | ⟨hs1, hs2⟩
          · left
            have : self._length = 0 := by omega
            rw [this]; simp
          · right; omega
        have hno : self._length * sz = 0 ∨ p + self._length * sz ≤ self._array ∨
            self._array + self._length * sz ≤ p := by
          rcases hstore with h0 | ⟨hs1, hs2⟩
          · left
            have : self._length = 0 := by omega
            rw [this]; simp
          · right; right; omega
        rw [memcpy_ok a1 p self._array (self._length * sz) hsrc (Or.inr ⟨by omega, by omega⟩) hno]
          at hg
        simp only [] at hg
        have hdst : (p + (self._length * sz) % SIZE_T) % SIZE_T = p + self._length * sz := by
          rw [hLmod]; exact Nat.mod_eq_of_lt (by omega)
        have hAM := AddMany_eq_of_grow sz self _ items count arena _ hg _ _ hdst hCmod
          (Or.inr ⟨by dsimp only; omega, by dsimp only; omega⟩)
        refine ⟨_, _, hAM, b3, b4, b5, ⟨?_, Or.inr ⟨?_, ?_⟩⟩, ?_, ?_, ?_, ?_⟩
        · show (self._length + count) % SIZE_T ≤ newcap
          omega
        · dsimp only; omega
        · dsimp only; omega
        · exact hsum
        · dsimp only
          rw [if_neg hneed, hnc]
        · intro j hj
          dsimp only
          rw [if_neg (by omega), if_pos (by omega)]
          have hlt : self._array + (p + j - p) < p := by
            rcases hstore with h0 | ⟨hs1, hs2⟩
            · exfalso
              have : self._length = 0 := by omega
              rw [this] at hj; simp at hj
            · omega
          rw [b7 _ (Or.inl hlt)]
          congr 1
          omega
        · intro j hj
          dsimp only
          rw [if_pos (by omega)]
          congr 1
          omega

theorem elems_eq (sz : Nat) (self : ArenaArray) (arena : ArenaAllocator)
    (h : self._array + self._length * sz < SIZE_T) :
    self.elems sz arena =
      (List.range self._length).map (fun i =>
        (List.range sz).map (fun k => arena.bytes (self._array + i * sz + k))) := by
  unfold ArenaArray.elems
  apply List.map_congr_left
  intro i hi
  have hi2 : i < self._length := List.mem_range.mp hi
  have hle : i * sz ≤ self._length * sz := Nat.mul_le_mul_right sz (Nat.le_of_lt hi2)
  unfold ArenaArray.index
  rw [if_pos hi2]
  simp only [ArenaAllocator.read]
  rw [Nat.mod_eq_of_lt (a := i * sz) (by omega), Nat.mod_eq_of_lt (by omega)]

/-- The step of `AddMany_ok_step` on the elements: the array afterwards holds
the elements it held, followed by the items added. -/
theorem AddMany_ok_elems (sz : Nat) (self : ArenaArray) (items : Nat → Nat) (count : Nat)
    (arena : ArenaAllocator)
    (hsz : 0 < sz) (hbuf : 0 < arena._buf) (hblock : arena._buf + arena._buf_len < SIZE_T)
    (hinv : arena.cursorInv) (hv : self.inArena sz arena)
    (hfit : self._capacity = 0 ∨ self._length + count ≤ 2 * self._capacity)
    (hsize : sz * (2 * self._capacity + self._length + count) < SIZE_T)
    (hok : (self.AddMany sz items count arena).isOk = true) :
    ∃ self1 arena1, self.AddMany sz items count arena = .ok (self1, arena1) ∧
      arena1._buf = arena._buf ∧ arena1._buf_len = arena._buf_len ∧ arena1.cursorInv ∧
      self1.inArena sz arena1 ∧
      self1._length = self._length + count ∧
      self1._capacity =
        (if self._length + count ≤ self._capacity then self._capacity
          else if self._capacity = 0 then self._length + count else 2 * self._capacity) ∧
      self1.elems sz arena1 = self.elems sz arena ++ itemsOf sz items count := by
  obtain ⟨self1, arena1, h1, h2, h3, h4, h5, h6, h7, h8, h9⟩ :=
    AddMany_ok_step sz self items count arena hsz hbuf hblock hinv hv hfit hsize hok
  refine ⟨self1, arena1, h1, h2, h3, h4, h5, h6, h7, ?_⟩
  have hinv2 : arena._curr_offset ≤ arena._buf_len := hinv
  have hinv3 : arena1._curr_offset ≤ arena1._buf_len := h4
  -- neither array wraps around the address space
  have hw : ∀ (a : ArenaArray) (ar : ArenaAllocator), a.inArena sz ar →
      ar._buf + ar._buf_len < SIZE_T → ar._curr_offset ≤ ar._buf_len →
      a._length = 0 ∨ a._array + a._length * sz < SIZE_T := by
    intro a ar ⟨hl, hs⟩ hb hc
    rcases hs with h0 | ⟨_, hs2⟩
    · left; omega
    · right
      have : a._length * sz ≤ a._capacity * sz := Nat.mul_le_mul_right sz hl
      omega
  have e0 : self.elems sz arena =
      (List.range self._length).map (fun i =>
        (List.range sz).map (fun k => arena.bytes (self._array + i * sz + k))) := by
    rcases hw self arena hv hblock hinv2 with h0 | hlt
    · unfold ArenaArray.elems; rw [h0]; rfl
    · exact elems_eq sz self arena hlt
  have e1 : self1.elems sz arena1 =
      (List.range self1._length).map (fun i =>
        (List.range sz).map (fun k => arena1.bytes (self1._array + i * sz + k))) := by
    rcases hw self1 arena1 h5 (by omega) hinv3 with h0 | hlt
    · unfold ArenaArray.elems; rw [h0]; rfl
    · exact elems_eq sz self1 arena1 hlt
  rw [e0, e1, h6, List.range_add, List.map_append, List.map_map]
  congr 1
  · apply List.map_congr_left
    intro i hi
    have hi2 : i < self._length := List.mem_range.mp hi
    apply List.map_congr_left
    intro k hk
    have hk2 : k < sz := List.mem_range.mp hk
    have hlt : i * sz + k < self._length * sz := by
      have : (i + 1) * sz ≤ self._length * sz := Nat.mul_le_mul_right sz hi2
      rw [Nat.add_mul, Nat.one_mul] at this
      omega
    have := h8 (i * sz + k) hlt
    rw [← Nat.add_assoc, ← Nat.add_assoc] at this
    exact this
  · unfold itemsOf
    apply List.map_congr_left
    intro c hc
    have hc2 : c < count := List.mem_range.mp hc
    apply List.map_congr_left
    intro k hk
    have hk2 : k < sz := List.mem_range.mp hk
    have hlt : c * sz + k < count * sz := by
      have : (c + 1) * sz ≤ count * sz := Nat.mul_le_mul_right sz hc2
      rw [Nat.add_mul, Nat.one_mul] at this
      omega
    have := h9 (c * sz + k) hlt
    simp only [Function.comp]
    rw [Nat.add_mul, ← this]
    congr 1
    omega

theorem itemsOf_one (sz : Nat) (item : Nat → Nat) :
    itemsOf sz item 1 = [(List.range sz).map item] := by
  unfold itemsOf
  rw [show List.range 1 = [0] from rfl]
  simp

theorem Add_run_correct (sz : Nat) (hsz : 0 < sz) (calls : List (Nat → Nat)) :
    ∀ (self : ArenaArray) (arena : ArenaAllocator),
      0 < arena._buf → arena._buf + arena._buf_len < SIZE_T → arena.cursorInv →
      self.inArena sz arena → self._capacity ≤ 2 * self._length →
      sz * (5 * (self._length + calls.length)) < SIZE_T →
      (addRun sz (self, arena) (calls.map (fun item => (item, 1)))).isOk = true →
      (addRun sz (self, arena) (calls.map (fun item => (item, 1)))).state.1._length =
        self._length + calls.length ∧
      (addRun sz (self, arena) (calls.map (fun item => (item, 1)))).state.1._length ≤
        (addRun sz (self, arena) (calls.map (fun item => (item, 1)))).state.1._capacity ∧
      (addRun sz (self, arena) (calls.map (fun item => (item, 1)))).state.1.elems sz
          (addRun sz (self, arena) (calls.map (fun item => (item, 1)))).state.2 =
        self.elems sz arena ++ calls.map (fun item => (List.range sz).map item) := by
  induction calls with
  | nil =>
    intro self arena _ _ _ hv _ _ _
    simp only [List.map_nil, addRun, Outcome.state, List.length_nil, Nat.add_zero,
      List.append_nil, and_true, true_and]
    exact hv.1
  | cons item rest ih =>
    intro self arena hbuf hblock hinv hv hcap hsize hok
    simp only [List.map_cons, addRun] at hok ⊢
    simp only [List.length_cons] at hsize ⊢
    have hlen : self._length ≤ self._capacity := hv.1
    cases hA : self.AddMany sz item 1 arena with
    | fault s => rw [hA] at hok; exact absurd hok (by simp [Outcome.isOk])
    | ok s =>
      rw [hA] at hok
      simp only [] at hok ⊢
      have hstep : sz * (2 * self._capacity + self._length + 1) < SIZE_T := by
        have : sz * (2 * self._capacity + self._length + 1) ≤
            sz * (5 * (self._length + (rest.length + 1))) :=
          Nat.mul_le_mul_left sz (by omega)
        omega
      obtain ⟨self1, arena1, h1, h2, h3, h4, h5, h6, h7, h8⟩ :=
        AddMany_ok_elems sz self item 1 arena hsz hbuf hblock hinv hv (by omega) hstep
          (by rw [hA]; rfl)
      rw [hA] at h1
      simp only [Outcome.ok.injEq] at h1
      subst h1
      have hcap1 : self1._capacity ≤ 2 * self1._length := by
        rw [h7, h6]
        split
        · omega
        · split <;> omega
      have hsize1 : sz * (5 * (self1._length + rest.length)) < SIZE_T := by
        rw [h6]
        have : self._length + 1 + rest.length = self._length + (rest.length + 1) := by omega
        rw [this]
        exact hsize
      obtain ⟨r1, r2, r3⟩ := ih self1 arena1 (by omega) (by omega) h4 h5 hcap1 hsize1 hok
      refine ⟨by rw [r1, h6]; omega, r2, ?_⟩
      rw [r3, h8, itemsOf_one, List.append_assoc]
      rfl

/-- Appending one item at a time is correct: any sequence of `Add` calls on
the empty array and a well-formed arena that runs without undefined behaviour
(so every growth allocation succeeded), with no size wrapping around, leaves
`length` equal to the number of calls, `length <= capacity`, and the elements
equal to the items added, in call order. -/
theorem Add_sequence_correct (sz : Nat) (hsz : 0 < sz) (calls : List (Nat → Nat))
    (arena : ArenaAllocator) (hbuf : 0 < arena._buf)
    (hblock : arena._buf + arena._buf_len < SIZE_T) (hinv : arena.cursorInv)
    (hsize : sz * (5 * calls.length) < SIZE_T)
    (hok : (addRun sz (ArenaArray.empty, arena) (calls.map (fun item => (item, 1)))).isOk
      = true) :
    (addRun sz (ArenaArray.empty, arena) (calls.map (fun item => (item, 1)))).state.1._length =
      calls.length ∧
    (addRun sz (ArenaArray.empty, arena) (calls.map (fun item => (item, 1)))).state.1._length ≤
      (addRun sz (ArenaArray.empty, arena) (calls.map (fun item => (item, 1)))).state.1._capacity ∧
    (addRun sz (ArenaArray.empty, arena) (calls.map (fun item => (item, 1)))).state.1.elems sz
        (addRun sz (ArenaArray.empty, arena) (calls.map (fun item => (item, 1)))).state.2 =
      calls.map (fun item => (List.range sz).map item) := by
  have h := Add_run_correct sz hsz calls ArenaArray.empty arena hbuf hblock hinv
    ⟨Nat.le_refl _, Or.inl rfl⟩ (Nat.zero_le _)
    (by simpa [ArenaArray.empty] using hsize) hok
  simpa [ArenaArray.empty, ArenaArray.elems] using h

/-- The scenario of the growth policy on any well-formed arena: if `Add(5)`
(and then `Add(7)`) on the empty `ArenaArray<i32>` runs without undefined
behaviour, the capacity, length and elements are 1, 1, [5] (then 2, 2,
[5, 7]). -/
theorem Add_5_then_Add_7 (arena : ArenaAllocator) (hbuf : 0 < arena._buf)
    (hblock : arena._buf + arena._buf_len < SIZE_T) (hinv : arena.cursorInv) :
      ((ArenaArray.empty.Add 4 (le_bytes 5) arena).isOk = true →
        (ArenaArray.empty.Add 4 (le_bytes 5) arena).state.1._capacity = 1 ∧
        (ArenaArray.empty.Add 4 (le_bytes 5) arena).state.1._length = 1 ∧
        (ArenaArray.empty.Add 4 (le_bytes 5) arena).state.1.elems 4
          (ArenaArray.empty.Add 4 (le_bytes 5) arena).state.2 = [i32_bytes 5]) ∧
      ((addRun 4 (ArenaArray.empty, arena) [(le_bytes 5, 1), (le_bytes 7, 1)]).isOk = true →
        (addRun 4 (ArenaArray.empty, arena)
          [(le_bytes 5, 1), (le_bytes 7, 1)]).state.1._capacity = 2 ∧
        (addRun 4 (ArenaArray.empty, arena)
          [(le_bytes 5, 1), (le_bytes 7, 1)]).state.1._length = 2 ∧
        (addRun 4 (ArenaArray.empty, arena)
          [(le_bytes 5, 1), (le_bytes 7, 1)]).state.1.elems 4
            (addRun 4 (ArenaArray.empty, arena)
              [(le_bytes 5, 1), (le_bytes 7, 1)]).state.2 = [i32_bytes 5, i32_bytes 7]) := by
  have first : (ArenaArray.empty.Add 4 (le_bytes 5) arena).isOk = true →
      ∃ self1 arena1, ArenaArray.empty.AddMany 4 (le_bytes 5) 1 arena = .ok (self1, arena1) ∧
        arena1._buf = arena._buf ∧ arena1._buf_len = arena._buf_len ∧ arena1.cursorInv ∧
        self1.inArena 4 arena1 ∧ self1._length = 1 ∧ self1._capacity = 1 ∧
        self1.elems 4 arena1 = [i32_bytes 5] := by
    intro hok
    obtain ⟨self1, arena1, h1, h2, h3, h4, h5, h6, h7, h8⟩ :=
      AddMany_ok_elems 4 ArenaArray.empty (le_bytes 5) 1 arena (by norm_num) hbuf hblock hinv
        ⟨Nat.le_refl _, Or.inl rfl⟩ (Or.inl rfl) (by decide) hok
    refine ⟨self1, arena1, h1, h2, h3, h4, h5, by simpa [ArenaArray.empty] using h6,
      by simpa [ArenaArray.empty] using h7, ?_⟩
    rw [h8, itemsOf_one]
    have e5 : (List.range 4).map (le_bytes 5) = i32_bytes 5 := by decide
    rw [e5]
    rfl
  refine ⟨fun hok => ?_, fun hok => ?_⟩
  · obtain ⟨self1, arena1, h1, -, -, -, -, h6, h7, h8⟩ := first hok
    unfold ArenaArray.Add
    rw [h1]
    exact ⟨h7, h6, h8⟩
  · simp only [addRun] at hok ⊢
    cases hA : ArenaArray.empty.AddMany 4 (le_bytes 5) 1 arena with
    | fault s => rw [hA] at hok; exact absurd hok (by simp [Outcome.isOk])
    | ok s =>
      obtain ⟨self1, arena1, h1, h2, h3, h4, h5, h6, h7, h8⟩ :=
        first (by unfold ArenaArray.Add; rw [hA]; rfl)
      rw [hA] at h1 hok
      simp only [Outcome.ok.injEq] at h1
      subst h1
      simp only [] at hok ⊢
      cases hB : self1.AddMany 4 (le_bytes 7) 1 arena1 with
      | fault s => rw [hB] at hok; exact absurd hok (by simp [Outcome.isOk])
      | ok s2 =>
        obtain ⟨self2, arena2, g1, -, -, -, -, g6, g7, g8⟩ :=
          AddMany_ok_elems 4 self1 (le_bytes 7) 1 arena1 (by norm_num) (by omega) (by omega) h4
            h5 (Or.inr (by omega)) (by rw [h6, h7]; decide) (by rw [hB]; rfl)
        rw [hB] at g1
        simp only [Outcome.ok.injEq] at g1
        subst g1
        simp only [Outcome.state]
        refine ⟨by rw [g7, h6, h7]; decide, by rw [g6, h6], ?_⟩
        have e7 : (List.range 4).map (le_bytes 7) = i32_bytes 7 := by decide
        rw [g8, h8, itemsOf_one, e7]
        rfl

/-- The return type of `Length()` is `i32`: an array of `2 ^ 31` elements
reports a negative length. -/
theorem Length_truncates :
    ArenaArray.Length { _array := 4096, _length := 2 ^ 31, _capacity := 2 ^ 31 } = -2147483648 := by
  decide

/-! ## The claims -/

/-- C1 (as stated) fails: on the arena `Init(1024)` whose block starts at
address 4112 (16-byte aligned, as calloc guarantees, but not 32-byte aligned),
offset 0 is the first offset at or after the cursor with `offset % 32 == 0`
and `0 + 1 * 4 <= 1024`, yet `Alloc<i32>(1, 32)` returns offset 16 and leaves
the cursor at 20. -/
theorem Alloc_offset_not_first_multiple :
    ((ArenaAllocator.Init 4112 1024)._curr_offset ≤ 0 ∧ 0 % 32 = 0 ∧
      0 + 1 * 4 ≤ (ArenaAllocator.Init 4112 1024)._buf_len) ∧
    ((ArenaAllocator.Init 4112 1024).Alloc 4 1 32).isOk = true ∧
    ((ArenaAllocator.Init 4112 1024).Alloc 4 1 32).state.1 = 4112 + 16 ∧
    ((ArenaAllocator.Init 4112 1024).Alloc 4 1 32).state.1 ≠ 4112 + 0 ∧
    ((ArenaAllocator.Init 4112 1024).Alloc 4 1 32).state.2._curr_offset = 20 ∧
    ((ArenaAllocator.Init 4112 1024).Alloc 4 1 32).state.2._curr_offset ≠ 0 + 1 * 4 := by
  decide

/-- C1 (amended): let `o` be the first offset at or after the cursor for which
the address `_buf + o` is a multiple of the power-of-two `align`.  If
`o + count * sizeof(T) <= capacity` then `Alloc` succeeds, returns the
(non-null) address of offset `o`, leaves the cursor at `o + count * sizeof(T)`
and the range zeroed.  In particular, when the block of `Init(1024)` starts at
a multiple of 16: `Alloc<i32>(1)` returns offset 0, then `Alloc<i32>(1, 16)`
returns offset 16, and after `Free()` `Alloc<i32>(1)` returns offset 0. -/
theorem Alloc_succeeds_at_first_aligned_address :
    (∀ (arena : ArenaAllocator) (sizeofT count k o : Nat),
      0 < arena._buf → arena._buf + arena._buf_len < SIZE_T → k < 64 →
      arena._curr_offset ≤ o → (arena._buf + o) % 2 ^ k = 0 →
      (∀ o2, arena._curr_offset ≤ o2 → (arena._buf + o2) % 2 ^ k = 0 → o ≤ o2) →
      o + count * sizeofT ≤ arena._buf_len →
      arena._buf + o ≠ NULL ∧
      arena.Alloc sizeofT count (2 ^ k) =
        .ok (arena._buf + o,
          { arena with
            _curr_offset := o + count * sizeofT
            bytes := fun x =>
              if arena._buf + o ≤ x ∧ x < arena._buf + o + count * sizeofT then 0
              else arena.bytes x })) ∧
    (∀ base : Nat, 0 < base → base % 16 = 0 → base + 1024 < SIZE_T →
      ∃ a1 a2 a3 : ArenaAllocator,
        (ArenaAllocator.Init base 1024).Alloc 4 1 DEFAULT_ARENA_ALIGNMENT = .ok (base + 0, a1) ∧
        a1._curr_offset = 4 ∧
        a1.Alloc 4 1 16 = .ok (base + 16, a2) ∧ a2._curr_offset = 20 ∧
        a2.Free.Alloc 4 1 DEFAULT_ARENA_ALIGNMENT = .ok (base + 0, a3) ∧
        a3._curr_offset = 4) := by
  have gen : ∀ (arena : ArenaAllocator) (sizeofT count k o : Nat),
      0 < arena._buf → arena._buf + arena._buf_len < SIZE_T → k < 64 →
      arena._curr_offset ≤ o → (arena._buf + o) % 2 ^ k = 0 →
      (∀ o2, arena._curr_offset ≤ o2 → (arena._buf + o2) % 2 ^ k = 0 → o ≤ o2) →
      o + count * sizeofT ≤ arena._buf_len →
      arena._buf + o ≠ NULL ∧
      arena.Alloc sizeofT count (2 ^ k) =
        .ok (arena._buf + o,
          { arena with
            _curr_offset := o + count * sizeofT
            bytes := fun x =>
              if arena._buf + o ≤ x ∧ x < arena._buf + o + count * sizeofT then 0
              else arena.bytes x }) := by
    intro arena sizeofT count k o hbuf hblock hk hge hal hfirst hfit
    refine ⟨by simp only [NULL]; omega, ?_⟩
    exact Alloc_eq_of_fit arena sizeofT count (2 ^ k) o hblock
      (alignedOffset_eq arena k o hk hge hal hfirst (by omega)) hfit
  refine ⟨gen, ?_⟩
  intro base hb h16 hlt
  obtain ⟨-, h1⟩ := gen (ArenaAllocator.Init base 1024) 4 1 4 0 hb
    (by simpa [ArenaAllocator.Init] using hlt) (by norm_num)
    (by simp [ArenaAllocator.Init]) (by simpa [ArenaAllocator.Init] using h16)
    (fun o2 _ _ => Nat.zero_le o2) (by simp [ArenaAllocator.Init])
  generalize hA1 : ({ ArenaAllocator.Init base 1024 with
      _curr_offset := 0 + 1 * 4
      bytes := fun x =>
        if (ArenaAllocator.Init base 1024)._buf + 0 ≤ x ∧
            x < (ArenaAllocator.Init base 1024)._buf + 0 + 1 * 4 then 0
        else (ArenaAllocator.Init base 1024).bytes x } : ArenaAllocator) = A1 at h1
  have b1 : A1._buf = base := by rw [← hA1]; rfl
  have l1 : A1._buf_len = 1024 := by rw [← hA1]; rfl
  have c1 : A1._curr_offset = 4 := by rw [← hA1]
  obtain ⟨-, h2⟩ := gen A1 4 1 4 16 (by omega) (by omega) (by norm_num)
    (by omega) (by rw [b1]; norm_num; omega)
    (by intro o2 h h2; rw [b1] at h2; norm_num at h2; omega) (by omega)
  generalize hA2 : ({ A1 with
      _curr_offset := 16 + 1 * 4
      bytes := fun x =>
        if A1._buf + 16 ≤ x ∧ x < A1._buf + 16 + 1 * 4 then 0 else A1.bytes x } :
      ArenaAllocator) = A2 at h2
  have b2 : A2.Free._buf = base := by rw [← hA2]; exact b1
  have l2 : A2.Free._buf_len = 1024 := by rw [← hA2]; exact l1
  have c2 : A2._curr_offset = 20 := by rw [← hA2]
  have c2f : A2.Free._curr_offset = 0 := rfl
  obtain ⟨-, h3⟩ := gen A2.Free 4 1 4 0 (by omega) (by omega) (by norm_num)
    (by omega) (by rw [b2]; norm_num; omega)
    (fun o2 _ _ => Nat.zero_le o2) (by omega)
  rw [b1] at h2
  rw [b2] at h3
  exact ⟨A1, A2, _, h1, c1, h2, c2, h3, rfl⟩

/-- Witness for C1 (amended): the general statement at the arena of the
counterexample (block at 4112, `align = 32`, first aligned offset 16), and the
scenario for a block at address 4096. -/
theorem Alloc_succeeds_at_first_aligned_address_witness :
    ((4112 + 16) % 2 ^ 5 = 0 ∧ 16 + 1 * 4 ≤ 1024 ∧
      ((ArenaAllocator.Init 4112 1024).Alloc 4 1 (2 ^ 5)).state.1 = 4112 + 16 ∧
      ((ArenaAllocator.Init 4112 1024).Alloc 4 1 (2 ^ 5)).state.2._curr_offset = 16 + 1 * 4) ∧
    (∃ a1 a2 a3 : ArenaAllocator,
        (ArenaAllocator.Init 4096 1024).Alloc 4 1 DEFAULT_ARENA_ALIGNMENT = .ok (4096 + 0, a1) ∧
        a1._curr_offset = 4 ∧
        a1.Alloc 4 1 16 = .ok (4096 + 16, a2) ∧ a2._curr_offset = 20 ∧
        a2.Free.Alloc 4 1 DEFAULT_ARENA_ALIGNMENT = .ok (4096 + 0, a3) ∧
        a3._curr_offset = 4) := by
  have h := (Alloc_succeeds_at_first_aligned_address.1 (ArenaAllocator.Init 4112 1024) 4 1 5 16
    (by decide) (by decide) (by decide) (by decide) (by decide)
    (by intro o2 _ h; simp only [ArenaAllocator.Init] at h; omega) (by decide)).2
  refine ⟨⟨by decide, by decide, ?_, ?_⟩,
    Alloc_succeeds_at_first_aligned_address.2 4096 (by decide) (by decide) (by decide)⟩
  · rw [h]; rfl
  · rw [h]; rfl

/-- C2 (code bug): on an arena of capacity 8 the request `Alloc<i64>(2 ^ 61)`
needs `2 ^ 64` bytes, far more than the 8 that remain, but `sizeof(T) * count`
wraps to 0 in `size_t`, the check of line 64 passes and the call returns the
non-null block address.  (The scenario of the claim, `Alloc<i64>(2)`, does
fail and leaves the cursor at 0.)  The sum of line 64 wraps as well: at cursor
16 of an arena of capacity 1024, `Alloc<u8>(2 ^ 64 - 8)` passes the check,
moves the cursor back to 8 and clears memory from address 4112 on, past the
end of the block. -/
theorem Alloc_accepts_request_whose_size_wraps :
    (2 ^ 61 < SIZE_T ∧
      (ArenaAllocator.Init 4096 8)._buf_len <
        (ArenaAllocator.Init 4096 8).alignedOffset DEFAULT_ARENA_ALIGNMENT + 2 ^ 61 * 8) ∧
    ((ArenaAllocator.Init 4096 8).Alloc 8 (2 ^ 61) DEFAULT_ARENA_ALIGNMENT).isOk = true ∧
    ((ArenaAllocator.Init 4096 8).Alloc 8 (2 ^ 61) DEFAULT_ARENA_ALIGNMENT).state.1 = 4096 ∧
    ((ArenaAllocator.Init 4096 8).Alloc 8 (2 ^ 61) DEFAULT_ARENA_ALIGNMENT).state.1 ≠ NULL ∧
    ((ArenaAllocator.Init 4096 8).Alloc 8 2 DEFAULT_ARENA_ALIGNMENT).state.1 = NULL ∧
    ((ArenaAllocator.Init 4096 8).Alloc 8 2 DEFAULT_ARENA_ALIGNMENT).state.2._curr_offset = 0 ∧
    (((ArenaAllocator.Init 4096 1024).Alloc 1 16 16).state.2._curr_offset = 16 ∧
      1024 < 16 + (2 ^ 64 - 8) * 1 ∧
      (((ArenaAllocator.Init 4096 1024).Alloc 1 16 16).state.2.Alloc 1 (2 ^ 64 - 8) 16).state.1
        = 4112 ∧
      (((ArenaAllocator.Init 4096 1024).Alloc 1 16 16).state.2.Alloc 1
        (2 ^ 64 - 8) 16).state.2._curr_offset = 8 ∧
      (((ArenaAllocator.Init 4096 1024).Alloc 1 16 16).state.2.Alloc 1 (2 ^ 64 - 8) 16).isOk
        = false) := by
  decide

/-- C3: for every buffer base address, cursor, element size, count and every
power-of-two alignment `a = 2 ^ k` (a `size_t`, so `k < 64`), the address
`Alloc` returns is a multiple of `a`; when the call succeeds (non-null result)
that address is `_buf` plus the offset computed by lines 51-60, and base plus
offset is a multiple of `a` as an integer too. -/
theorem Alloc_returns_aligned_address (arena : ArenaAllocator) (sizeofT count k : Nat)
    (hk : k < 64) (hbuf : arena._buf < SIZE_T) :
    (arena.Alloc sizeofT count (2 ^ k)).state.1 % 2 ^ k = 0 ∧
    ((arena.Alloc sizeofT count (2 ^ k)).state.1 ≠ NULL →
      (arena.Alloc sizeofT count (2 ^ k)).state.1 =
        (arena._buf + arena.alignedOffset (2 ^ k)) % SIZE_T ∧
      (arena._buf + arena.alignedOffset (2 ^ k)) % 2 ^ k = 0) := by
  have hal := alignedOffset_dvd arena k hk hbuf
  rw [Alloc_state]
  split
  · refine ⟨?_, fun _ => ⟨rfl, hal⟩⟩
    show (arena._buf + arena.alignedOffset (2 ^ k)) % SIZE_T % 2 ^ k = 0
    rw [Nat.mod_mod_of_dvd _ (pow_dvd_SIZE_T k hk)]
    exact hal
  · exact ⟨Nat.zero_mod _, fun h => absurd rfl h⟩

/-- Witness for C3: a 64-byte aligned allocation in a block at address 4112
is placed at offset 48, address 4160. -/
theorem Alloc_returns_aligned_address_witness :
    ((ArenaAllocator.Init 4112 1024).Alloc 4 1 (2 ^ 6)).state.1 = 4160 ∧
    ((ArenaAllocator.Init 4112 1024).Alloc 4 1 (2 ^ 6)).state.1 % 2 ^ 6 = 0 :=
  ⟨by decide,
    (Alloc_returns_aligned_address (ArenaAllocator.Init 4112 1024) 4 1 6
      (by decide) (by decide)).1⟩

/-- C4 (code bug): two consecutive calls `Alloc<i64>(2 ^ 61)` on an arena of
capacity 8 both succeed and both return the block address 4096: the two
ranges of `2 ^ 61 * 8` bytes handed out coincide. -/
theorem Alloc_hands_out_overlapping_ranges :
    allocRun (ArenaAllocator.Init 4096 8)
        [⟨8, 2 ^ 61, DEFAULT_ARENA_ALIGNMENT⟩, ⟨8, 2 ^ 61, DEFAULT_ARENA_ALIGNMENT⟩] =
      [(4096, 2 ^ 61 * 8), (4096, 2 ^ 61 * 8)] ∧
    rangesOverlap (4096, 2 ^ 61 * 8) (4096, 2 ^ 61 * 8) := by
  decide

/-- C5 (code bug): an arena of capacity 8 whose 8 bytes were set to 255
through an earlier allocation and then reset with `Free()` (`usedArena`).  The call
`Alloc<i64>(2 ^ 61)` succeeds and returns the block address, but zeroes
`sizeof(T) * count mod 2 ^ 64 = 0` bytes: the first byte of the returned range
still reads 255. -/
theorem Alloc_returns_unzeroed_range :
    (usedArena._buf = 4096 ∧ usedArena._buf_len = 8 ∧ usedArena._curr_offset = 0 ∧
      usedArena.bytes 4096 = 255) ∧
    (usedArena.Alloc 8 (2 ^ 61) DEFAULT_ARENA_ALIGNMENT).isOk = true ∧
    (usedArena.Alloc 8 (2 ^ 61) DEFAULT_ARENA_ALIGNMENT).state.1 = 4096 ∧
    0 < 2 ^ 61 * 8 ∧
    (usedArena.Alloc 8 (2 ^ 61) DEFAULT_ARENA_ALIGNMENT).state.2.bytes (4096 + 0) = 255 := by
  decide

/-- C6 (code bug): `ArenaArray<i32>` on the arena `Init(1024)`: `Add(1)`,
`AddMany({2,3,4,5}, 4)`, `Add(6)`.  Every growth allocation succeeds.  After
the second call the array holds 1,2,3,4,5 with length 5 but capacity 2 (one
doubling of capacity 1), so elements 2,3,4 lie past the 8 bytes allocated for
it at address 4112.  The growth allocation of the third call is placed at
4128, inside those elements, and zeroes the bytes of element 4 (value 5); the
copy of line 96 then has overlapping source and destination.  The run does
not end with the elements 1,2,3,4,5,6.  On the arena `Init(24)` the calls
`Add(1)`, `AddMany({2,3}, 2)` allocate capacity 2 at 4112, the last 8 bytes of
the block, and write the third element past the end of the block. -/
theorem AddMany_single_doubling_loses_elements :
    (addRun 4 (ArenaArray.empty, ArenaAllocator.Init 4096 1024)
        [(i32_items [1], 1), (i32_items [2, 3, 4, 5], 4)]).isOk = true ∧
    (addRun 4 (ArenaArray.empty, ArenaAllocator.Init 4096 1024)
        [(i32_items [1], 1), (i32_items [2, 3, 4, 5], 4)]).state.1 =
      { _array := 4112, _length := 5, _capacity := 2 } ∧
    ((addRun 4 (ArenaArray.empty, ArenaAllocator.Init 4096 1024)
        [(i32_items [1], 1), (i32_items [2, 3, 4, 5], 4)]).state.2.Alloc 4 4
          DEFAULT_ARENA_ALIGNMENT).state.1 = 4128 ∧
    (addRun 4 (ArenaArray.empty, ArenaAllocator.Init 4096 1024)
        [(i32_items [1], 1), (i32_items [2, 3, 4, 5], 4), (i32_items [6], 1)]).isOk = false ∧
    (addRun 4 (ArenaArray.empty, ArenaAllocator.Init 4096 1024)
        [(i32_items [1], 1), (i32_items [2, 3, 4, 5], 4)]).state.2.read (4112 + 4 * 4) 4 =
      i32_bytes 5 ∧
    (addRun 4 (ArenaArray.empty, ArenaAllocator.Init 4096 1024)
        [(i32_items [1], 1), (i32_items [2, 3, 4, 5], 4), (i32_items [6], 1)]).state.2.read
          (4112 + 4 * 4) 4 = i32_bytes 0 ∧
    (((addRun 4 (ArenaArray.empty, ArenaAllocator.Init 4096 24)
        [(i32_items [1], 1)]).state.2.Alloc 4 2 DEFAULT_ARENA_ALIGNMENT).state.1 = 4112 ∧
      (addRun 4 (ArenaArray.empty, ArenaAllocator.Init 4096 24)
        [(i32_items [1], 1), (i32_items [2, 3], 2)]).isOk = false) := by
  decide

/-- C7 (code bug): `ArenaArray<i64>` on an arena of capacity 8.  `Add(7)`
succeeds (capacity 1, the element at address 4096).  `Add(9)` must grow to
capacity 2; `Alloc<i64>(2)` returns `NULL`.  `AddMany` has already stored the
new capacity, stores `NULL` in `_array`, and copies through the null pointer:
undefined behaviour, and the array was modified (capacity 2, storage lost). -/
theorem AddMany_ignores_failed_allocation :
    (addRun 8 (ArenaArray.empty, ArenaAllocator.Init 4096 8) [(le_bytes 7, 1)]).isOk = true ∧
    (addRun 8 (ArenaArray.empty, ArenaAllocator.Init 4096 8) [(le_bytes 7, 1)]).state.1 =
      { _array := 4096, _length := 1, _capacity := 1 } ∧
    ((addRun 8 (ArenaArray.empty, ArenaAllocator.Init 4096 8)
        [(le_bytes 7, 1)]).state.2.Alloc 8 2 DEFAULT_ARENA_ALIGNMENT).state.1 = NULL ∧
    (addRun 8 (ArenaArray.empty, ArenaAllocator.Init 4096 8)
        [(le_bytes 7, 1), (le_bytes 9, 1)]).isOk = false ∧
    (addRun 8 (ArenaArray.empty, ArenaAllocator.Init 4096 8)
        [(le_bytes 7, 1), (le_bytes 9, 1)]).state.1 =
      { _array := NULL, _length := 1, _capacity := 2 } := by
  decide

/-- C8 (code bug): the array `{_array = 4096, _length = 1, _capacity = 1}`
(reached by `Add(1)` on the arena `Init(1024)`) satisfies
`0 <= length <= capacity`.  `AddMany(items, 2, arena)` grows by one doubling
to capacity 2, its allocation succeeds, and it appends both items: length 3
exceeds capacity 2. -/
theorem AddMany_breaks_length_le_capacity :
    (ArenaArray.empty.Add 4 (i32_items [1]) (ArenaAllocator.Init 4096 1024)).state.1 =
      { _array := 4096, _length := 1, _capacity := 1 } ∧
    ((ArenaArray.empty.Add 4 (i32_items [1]) (ArenaAllocator.Init 4096 1024)).state.2.Alloc 4 2
        DEFAULT_ARENA_ALIGNMENT).state.1 ≠ NULL ∧
    (ArenaArray.AddMany 4
        (ArenaArray.empty.Add 4 (i32_items [1]) (ArenaAllocator.Init 4096 1024)).state.1
        (i32_items [2, 3]) 2
        (ArenaArray.empty.Add 4 (i32_items [1]) (ArenaAllocator.Init 4096 1024)).state.2).isOk
      = true ∧
    (ArenaArray.AddMany 4
        (ArenaArray.empty.Add 4 (i32_items [1]) (ArenaAllocator.Init 4096 1024)).state.1
        (i32_items [2, 3]) 2
        (ArenaArray.empty.Add 4 (i32_items [1]) (ArenaAllocator.Init 4096 1024)).state.2).state.1
      = { _array := 4112, _length := 3, _capacity := 2 } ∧
    ¬ (3 ≤ 2) := by
  decide

/-- C9: growth policy of `AddMany(items, count, arena)`, with `length + count`
and `2 * capacity` the `size_t` values the code computes.  If
`length + count <= capacity` the growth block does nothing: no allocation,
the arena cursor, the capacity and the storage address are unchanged.
Otherwise the capacity becomes `length + count` when it was 0 and twice the
old capacity otherwise, and the storage address and the arena cursor are
those that one call `Alloc<T>(new capacity)` on the arena produces.  From the
empty `ArenaArray<i32>`, on every well-formed arena on which the calls run
without undefined behaviour, and so on the arena `Init(1024)`: `Add(5)` gives
capacity 1, length 1, element 0 equal to 5, and then `Add(7)` gives capacity
2, length 2, elements 5, 7. -/
theorem AddMany_growth_policy :
    (∀ (sizeofT : Nat) (self : ArenaArray) (items : Nat → Nat) (item_count : Nat)
        (arena : ArenaAllocator),
      ((self._length + item_count) % SIZE_T ≤ self._capacity →
        self.grow sizeofT item_count arena = .ok (self, arena) ∧
        (self.AddMany sizeofT items item_count arena).state.2._curr_offset =
          arena._curr_offset ∧
        (self.AddMany sizeofT items item_count arena).state.1._capacity = self._capacity ∧
        (self.AddMany sizeofT items item_count arena).state.1._array = self._array) ∧
      (self._capacity < (self._length + item_count) % SIZE_T →
        (self.AddMany sizeofT items item_count arena).state.1._capacity =
          (if self._capacity = 0 then (self._length + item_count) % SIZE_T
            else (self._capacity * 2) % SIZE_T) ∧
        (self.AddMany sizeofT items item_count arena).state.1._array =
          (arena.Alloc sizeofT
            (if self._capacity = 0 then (self._length + item_count) % SIZE_T
              else (self._capacity * 2) % SIZE_T) DEFAULT_ARENA_ALIGNMENT).state.1 ∧
        (self.AddMany sizeofT items item_count arena).state.2._curr_offset =
          (arena.Alloc sizeofT
            (if self._capacity = 0 then (self._length + item_count) % SIZE_T
              else (self._capacity * 2) % SIZE_T)
            DEFAULT_ARENA_ALIGNMENT).state.2._curr_offset)) ∧
    (∀ arena : ArenaAllocator, 0 < arena._buf → arena._buf + arena._buf_len < SIZE_T →
      arena.cursorInv →
      ((ArenaArray.empty.Add 4 (le_bytes 5) arena).isOk = true →
        (ArenaArray.empty.Add 4 (le_bytes 5) arena).state.1._capacity = 1 ∧
        (ArenaArray.empty.Add 4 (le_bytes 5) arena).state.1._length = 1 ∧
        (ArenaArray.empty.Add 4 (le_bytes 5) arena).state.1.elems 4
          (ArenaArray.empty.Add 4 (le_bytes 5) arena).state.2 = [i32_bytes 5]) ∧
      ((addRun 4 (ArenaArray.empty, arena) [(le_bytes 5, 1), (le_bytes 7, 1)]).isOk = true →
        (addRun 4 (ArenaArray.empty, arena)
          [(le_bytes 5, 1), (le_bytes 7, 1)]).state.1._capacity = 2 ∧
        (addRun 4 (ArenaArray.empty, arena)
          [(le_bytes 5, 1), (le_bytes 7, 1)]).state.1._length = 2 ∧
        (addRun 4 (ArenaArray.empty, arena)
          [(le_bytes 5, 1), (le_bytes 7, 1)]).state.1.elems 4
            (addRun 4 (ArenaArray.empty, arena)
              [(le_bytes 5, 1), (le_bytes 7, 1)]).state.2 = [i32_bytes 5, i32_bytes 7])) ∧
    ((ArenaArray.empty.Add 4 (le_bytes 5) (ArenaAllocator.Init 4096 1024)).isOk = true ∧
      (ArenaArray.empty.Add 4 (le_bytes 5) (ArenaAllocator.Init 4096 1024)).state.1._capacity = 1 ∧
      (ArenaArray.empty.Add 4 (le_bytes 5) (ArenaAllocator.Init 4096 1024)).state.1._length = 1 ∧
      (ArenaArray.empty.Add 4 (le_bytes 5) (ArenaAllocator.Init 4096 1024)).state.1.elems 4
        (ArenaArray.empty.Add 4 (le_bytes 5) (ArenaAllocator.Init 4096 1024)).state.2 =
          [i32_bytes 5] ∧
      (addRun 4 (ArenaArray.empty, ArenaAllocator.Init 4096 1024)
        [(le_bytes 5, 1), (le_bytes 7, 1)]).isOk = true ∧
      (addRun 4 (ArenaArray.empty, ArenaAllocator.Init 4096 1024)
        [(le_bytes 5, 1), (le_bytes 7, 1)]).state.1._capacity = 2 ∧
      (addRun 4 (ArenaArray.empty, ArenaAllocator.Init 4096 1024)
        [(le_bytes 5, 1), (le_bytes 7, 1)]).state.1._length = 2 ∧
      (addRun 4 (ArenaArray.empty, ArenaAllocator.Init 4096 1024)
        [(le_bytes 5, 1), (le_bytes 7, 1)]).state.1.elems 4
          (addRun 4 (ArenaArray.empty, ArenaAllocator.Init 4096 1024)
            [(le_bytes 5, 1), (le_bytes 7, 1)]).state.2 = [i32_bytes 5, i32_bytes 7]) := by
  refine ⟨?_, fun arena h1 h2 h3 => Add_5_then_Add_7 arena h1 h2 h3, by decide⟩
  intro sizeofT self items item_count arena
  have hs := AddMany_state_of_grow sizeofT self items item_count arena
  refine ⟨fun hle => ?_, fun hlt => ?_⟩
  · have hg : self.grow sizeofT item_count arena = .ok (self, arena) := by
      unfold ArenaArray.grow
      rw [if_neg (by omega)]
    refine ⟨hg, ?_, ?_, ?_⟩
    · rw [hs.2.2, hg]; rfl
    · rw [hs.1, hg]; rfl
    · rw [hs.2.1, hg]; rfl
  · have hg := grow_state sizeofT self item_count arena hlt
    exact ⟨hs.1.trans hg.1, hs.2.1.trans hg.2.1, hs.2.2.trans hg.2.2⟩

/-- Witness for C9: on the arena `Init(1024)` after one allocation of 8 bytes,
appending one item to `{_array = 4096, _length = 1, _capacity = 2}` allocates
nothing, and appending one item to `{_array = 4096, _length = 1, _capacity =
1}` doubles the capacity to 2 with the storage at the address of one
`Alloc<i32>(2)`; and the scenario on the arena `Init(1024)`. -/
theorem AddMany_growth_policy_witness :
    ((1 + 1) % SIZE_T ≤ 2 ∧
      (ArenaArray.AddMany 4 { _array := 4096, _length := 1, _capacity := 2 } (le_bytes 7) 1
        ((ArenaAllocator.Init 4096 1024).Alloc 4 2 16).state.2).state.1._capacity = 2 ∧
      (ArenaArray.AddMany 4 { _array := 4096, _length := 1, _capacity := 2 } (le_bytes 7) 1
        ((ArenaAllocator.Init 4096 1024).Alloc 4 2 16).state.2).state.2._curr_offset = 8) ∧
    (1 < (1 + 1) % SIZE_T ∧
      (ArenaArray.AddMany 4 { _array := 4096, _length := 1, _capacity := 1 } (le_bytes 7) 1
        ((ArenaAllocator.Init 4096 1024).Alloc 4 2 16).state.2).state.1._capacity = 2 ∧
      (ArenaArray.AddMany 4 { _array := 4096, _length := 1, _capacity := 1 } (le_bytes 7) 1
        ((ArenaAllocator.Init 4096 1024).Alloc 4 2 16).state.2).state.1._array = 4112) ∧
    ((addRun 4 (ArenaArray.empty, ArenaAllocator.Init 4096 1024)
        [(le_bytes 5, 1), (le_bytes 7, 1)]).isOk = true ∧
      (addRun 4 (ArenaArray.empty, ArenaAllocator.Init 4096 1024)
        [(le_bytes 5, 1), (le_bytes 7, 1)]).state.1._capacity = 2 ∧
      (addRun 4 (ArenaArray.empty, ArenaAllocator.Init 4096 1024)
        [(le_bytes 5, 1), (le_bytes 7, 1)]).state.1._length = 2) := by
  have h1 := (AddMany_growth_policy.1 4 { _array := 4096, _length := 1, _capacity := 2 }
    (le_bytes 7) 1 ((ArenaAllocator.Init 4096 1024).Alloc 4 2 16).state.2).1 (by decide)
  have h2 := (AddMany_growth_policy.1 4 { _array := 4096, _length := 1, _capacity := 1 }
    (le_bytes 7) 1 ((ArenaAllocator.Init 4096 1024).Alloc 4 2 16).state.2).2 (by decide)
  have h3 := (AddMany_growth_policy.2.1 (ArenaAllocator.Init 4096 1024) (by decide) (by decide)
    (Nat.zero_le _)).2 (by decide)
  refine ⟨⟨by decide, h1.2.2.1, ?_⟩, ⟨by decide, ?_, ?_⟩, ⟨by decide, h3.1, h3.2.1⟩⟩
  · rw [h1.2.1]; decide
  · rw [h2.1]; decide
  · rw [h2.2.1]; decide

/-- C10: `0 <= cursor <= capacity` holds after `Init(size)`, is preserved by
every `Alloc` call (whatever the element size, count and alignment, successful
or not, in the `size_t` arithmetic of the code), and holds after `Free()`. -/
theorem cursor_le_capacity_invariant :
    (∀ calloc_ptr size : Nat, (ArenaAllocator.Init calloc_ptr size).cursorInv) ∧
    (∀ (arena : ArenaAllocator) (sizeofT count align : Nat), arena.cursorInv →
      (arena.Alloc sizeofT count align).state.2.cursorInv) ∧
    (∀ arena : ArenaAllocator, arena.cursorInv → arena.Free.cursorInv) :=
  ⟨fun _ size => Nat.zero_le size,
    fun arena sizeofT count align h => Alloc_state_cursor arena sizeofT count align h,
    fun arena _ => Nat.zero_le arena._buf_len⟩

/-- Witness for C10: the invariant after an allocation whose size wraps
around (`2 ^ 64 - 8` one-byte elements at cursor 16) and after a reset. -/
theorem cursor_le_capacity_invariant_witness :
    (ArenaAllocator.Init 4096 1024).cursorInv ∧
    (((ArenaAllocator.Init 4096 1024).Alloc 1 16 16).state.2.Alloc 1
      (2 ^ 64 - 8) 16).state.2.cursorInv ∧
    ((ArenaAllocator.Init 4096 1024).Alloc 4 3 16).state.2.Free.cursorInv :=
  ⟨cursor_le_capacity_invariant.1 4096 1024,
    cursor_le_capacity_invariant.2.1 _ 1 (2 ^ 64 - 8) 16
      (cursor_le_capacity_invariant.2.1 _ 1 16 16 (cursor_le_capacity_invariant.1 4096 1024)),
    cursor_le_capacity_invariant.2.2 _
      (cursor_le_capacity_invariant.2.1 _ 4 3 16 (cursor_le_capacity_invariant.1 4096 1024))⟩
end Borderlesser
